import Mathlib

/-!
# rig: connection dispatch and session bootstrap

A shallow embedding of `connection.go`, of `resolver.go` (resolver selection, the Windows
strategy and the os-release parser) and of `os/linux.go`.

Go strings are embedded as Lean strings (sequences of Unicode scalar values, that is,
well-formed UTF-8 text); byte lengths are taken with `Char.utf8Size`.  Library code the
package calls (`bufio`, `strings`, `strconv`, `shlex`, `shellescape`, `defaults`) is either
embedded from its documented behaviour or taken as a parameter; each such definition says so.
-/

namespace Rig

/-! ## Characters used by the embedded library code -/

/-- Line feed. -/
def chLF : Char := Char.ofNat 10
/-- Carriage return. -/
def chCR : Char := Char.ofNat 13
/-- The equals sign. -/
def chEq : Char := Char.ofNat 61
/-- Double quote. -/
def chDQ : Char := Char.ofNat 34
/-- Single quote. -/
def chSQ : Char := Char.ofNat 39
/-- Back quote. -/
def chBQ : Char := Char.ofNat 96
/-- Backslash. -/
def chBS : Char := Char.ofNat 92

/-! ## `strings.SplitN` with a one-character separator -/

/-- Cut a text at the first occurrence of `sep`: the text before it and the text after it,
or `none` when `sep` does not occur. -/
def cutAt (sep : Char) : List Char → Option (List Char × List Char)
  | [] => none
  | c :: cs =>
    if c = sep then some ([], cs)
    else match cutAt sep cs with
      | none => none
      | some (a, b) => some (c :: a, b)

/-- Go `strings.SplitN(s, sep, n)` for a one-character `sep` and `n ≥ 0`: at most `n`
substrings, the last one being the unsplit remainder. -/
def splitNChars (sep : Char) : Nat → List Char → List (List Char)
  | 0, _ => []
  | 1, cs => [cs]
  | n + 2, cs =>
    match cutAt sep cs with
    | none => [cs]
    | some (a, b) => a :: splitNChars sep (n + 1) b

/-- Go `strings.SplitN(s, "=", n)` as called by `parseOSReleaseFile`. -/
def SplitN (s : String) (sep : Char) (n : Nat) : List String :=
  (splitNChars sep n s.data).map String.mk

/-! ## `bufio.Scanner` with the default `ScanLines` split function -/

/-- Go `bufio.MaxScanTokenSize`: the size of the scanner's buffer. -/
def MaxScanTokenSize : Nat := 64 * 1024

/-- Number of bytes of the UTF-8 encoding of a text. -/
def byteLen (cs : List Char) : Nat := (cs.map Char.utf8Size).sum

/-- Go `bufio` `dropCR`: drop one trailing carriage return. -/
def dropCR (cs : List Char) : List Char :=
  if cs.getLast? = some chCR then cs.dropLast else cs

/-- The tokens `scanner.Scan()`/`scanner.Text()` yield on the rest of the input, `acc` being
the current line read so far, in reverse.  A line ends at a line feed or at the end of the
input; a line that does not fit the buffer together with its line feed
(`MaxScanTokenSize` bytes or more) makes `Scan` return false for good (`ErrTooLong`). -/
def scanFrom : List Char → List Char → List (List Char)
  | [], acc =>
    if acc.isEmpty then []
    else if MaxScanTokenSize ≤ byteLen acc then []
    else [dropCR acc.reverse]
  | c :: cs, acc =>
    if c = chLF then
      if MaxScanTokenSize ≤ byteLen acc then []
      else dropCR acc.reverse :: scanFrom cs []
    else scanFrom cs (c :: acc)

/-- All the lines a `bufio.NewScanner(strings.NewReader(s))` loop sees. -/
def scanLines (s : String) : List String :=
  (scanFrom s.data []).map String.mk

/-! ## `strconv.Unquote` -/

/-- Position of the first occurrence of a character. -/
def indexOfChar (q : Char) : List Char → Option Nat
  | [] => none
  | c :: cs => if c = q then some 0 else (indexOfChar q cs).map (· + 1)

/-- Go `strconv.Unquote`.  The input must be at least two characters long and start with a
back quote, a double quote or a single quote, closed by the same character at the very end.
Back-quoted text is raw (carriage returns are dropped); a double-quoted text without
backslash is taken as it is; a single-quoted text is a character literal and holds at most
one character.  A line feed inside the quotes is a syntax error.  Texts with a backslash
inside the quotes take the escape-sequence path of the library, which is the parameter
`esc`.  `none` is `ErrSyntax`. -/
def strconvUnquote (esc : String → Option String) (s : String) : Option String :=
  match s.data with
  | [] => none
  | [_] => none
  | q :: rest =>
    match indexOfChar q rest with
    | none => none
    | some i =>
      let inner := rest.take i
      let rem := rest.drop (i + 1)
      if q = chBQ then
        if rem.isEmpty then some (String.mk (inner.filter (fun c => c != chCR))) else none
      else if q = chDQ ∨ q = chSQ then
        if chLF ∈ inner then none
        else if chBS ∈ inner then esc s
        else if q = chSQ ∧ 2 ≤ inner.length then none
        else if rem.isEmpty then some (String.mk inner) else none
      else none

/-! ## `resolver.go` -/

/-- The OS identity record (`OSVersion`); its declaration is outside the embedded files, the
four fields are the ones `resolver.go` assigns. -/
structure OSVersion where
  ID : String
  IDLike : String
  Version : String
  Name : String
  deriving DecidableEq, Repr

/-- The outcome of running Go code that may panic at run time. -/
inductive Res (α : Type) where
  | ok (a : α)
  | panic (msg : String)
  deriving DecidableEq, Repr

/-- Go `unquote` of `resolver.go`: the unquoted text, or the text itself when
`strconv.Unquote` fails. -/
def unquote (esc : String → Option String) (s : String) : String :=
  match strconvUnquote esc s with
  | some u => u
  | none => s

/-- Go slice indexing `fields[i]`: a run-time panic when `i` is out of range. -/
def index (fields : List String) (i : Nat) : Res String :=
  match fields.get? i with
  | some v => Res.ok v
  | none => Res.panic "index out of range"

/-- One iteration of the loop of `parseOSReleaseFile` on the line `text`. -/
def parseLine (esc : String → Option String) (text : String) (os : OSVersion) :
    Res OSVersion :=
  let fields := SplitN text chEq 2
  match index fields 0 with
  | Res.panic m => Res.panic m
  | Res.ok key =>
    if key = "ID" then
      match index fields 1 with
      | Res.panic m => Res.panic m
      | Res.ok v => Res.ok { os with ID := unquote esc v }
    else if key = "ID_LIKE" then
      match index fields 1 with
      | Res.panic m => Res.panic m
      | Res.ok v => Res.ok { os with IDLike := unquote esc v }
    else if key = "VERSION_ID" then
      match index fields 1 with
      | Res.panic m => Res.panic m
      | Res.ok v => Res.ok { os with Version := unquote esc v }
    else if key = "PRETTY_NAME" then
      match index fields 1 with
      | Res.panic m => Res.panic m
      | Res.ok v => Res.ok { os with Name := unquote esc v }
    else Res.ok os

/-- The loop `for scanner.Scan()` of `parseOSReleaseFile` over the lines still to come. -/
def parseLines (esc : String → Option String) : List String → OSVersion → Res OSVersion
  | [], os => Res.ok os
  | l :: ls, os =>
    match parseLine esc l os with
    | Res.panic m => Res.panic m
    | Res.ok os1 => parseLines esc ls os1

/-- Go `parseOSReleaseFile(s, os)`: the returned `error` (always nil, `none`) and the record
`os` points to afterwards, or a run-time panic. -/
def parseOSReleaseFile (esc : String → Option String) (s : String) (os : OSVersion) :
    Res (Option String × OSVersion) :=
  match parseLines esc (scanLines s) os with
  | Res.panic m => Res.panic m
  | Res.ok os1 => Res.ok (none, os1)

/-! ## `shlex.Split` and `shellescape.Quote`

`sudoSudo` is embedded over any tokenizer and any quoting function (`Shell`); `goShell` is
the pair the program links, embedded from the two libraries' documented behaviour. -/

/-- The two shell utilities `sudoSudo` calls: `shlex.Split`, returning the words and an
error (`none` for nil), and `shellescape.Quote`. -/
structure Shell where
  Split : String → List String × Option String
  Quote : String → String

/-- The states of the `shlex` tokenizer. -/
inductive LexState where
  | start
  | inWord
  | escaping
  | escapingQuoted
  | quotingEscaping
  | quoting
  | comment
  deriving DecidableEq, Repr

/-- The `shlex` space class: blank, tab, carriage return, line feed. -/
def isShlexSpace (c : Char) : Bool :=
  c = ' ' || c = Char.ofNat 9 || c = chCR || c = chLF

/-- The `shlex` tokenizer run by `Split`: `st` is the tokenizer state, `val` the current
token read so far (reversed); the result is the words in order and the error that stopped
the scan, if any.  Comment tokens are skipped. -/
def shlexRun : LexState → List Char → List Char → List String × Option String
  | LexState.start, _, [] => ([], none)
  | LexState.inWord, val, [] => ([String.mk val.reverse], none)
  | LexState.escaping, _, [] => ([], some "EOF found after escape character")
  | LexState.escapingQuoted, _, [] => ([], some "EOF found after escape character")
  | LexState.quotingEscaping, _, [] => ([], some "EOF found when expecting closing quote")
  | LexState.quoting, _, [] => ([], some "EOF found when expecting closing quote")
  | LexState.comment, _, [] => ([], none)
  | LexState.start, val, c :: cs =>
    if isShlexSpace c then shlexRun LexState.start val cs
    else if c = chDQ then shlexRun LexState.quotingEscaping val cs
    else if c = chSQ then shlexRun LexState.quoting val cs
    else if c = chBS then shlexRun LexState.escaping val cs
    else if c = '#' then shlexRun LexState.comment val cs
    else shlexRun LexState.inWord (c :: val) cs
  | LexState.inWord, val, c :: cs =>
    if isShlexSpace c then
      let r := shlexRun LexState.start [] cs
      (String.mk val.reverse :: r.1, r.2)
    else if c = chDQ then shlexRun LexState.quotingEscaping val cs
    else if c = chSQ then shlexRun LexState.quoting val cs
    else if c = chBS then shlexRun LexState.escaping val cs
    else shlexRun LexState.inWord (c :: val) cs
  | LexState.escaping, val, c :: cs => shlexRun LexState.inWord (c :: val) cs
  | LexState.escapingQuoted, val, c :: cs => shlexRun LexState.quotingEscaping (c :: val) cs
  | LexState.quotingEscaping, val, c :: cs =>
    if c = chDQ then shlexRun LexState.inWord val cs
    else if c = chBS then shlexRun LexState.escapingQuoted val cs
    else shlexRun LexState.quotingEscaping (c :: val) cs
  | LexState.quoting, val, c :: cs =>
    if c = chSQ then shlexRun LexState.inWord val cs
    else shlexRun LexState.quoting (c :: val) cs
  | LexState.comment, val, c :: cs =>
    if c = chLF then shlexRun LexState.start [] cs
    else shlexRun LexState.comment (c :: val) cs

/-- Go `shlex.Split`. -/
def shlexSplit (s : String) : List String × Option String :=
  shlexRun LexState.start [] s.data

/-- The characters `shellescape.Quote` leaves unquoted: ASCII letters, digits, underscore
and the nine characters at, percent, plus, equals, colon, comma, dot, slash and hyphen. -/
def isShellSafe (c : Char) : Bool :=
  c.isAlphanum || c = '_' || c = '@' || c = '%' || c = '+' || c = chEq || c = ':' ||
    c = ',' || c = '.' || c = '/' || c = '-'

/-- Go `shellescape.Quote`: the empty text becomes two single quotes; a text with a
character outside the safe set is wrapped in single quotes, every single quote in it
replaced by the five characters quote, double quote, quote, double quote, quote. -/
def shellescapeQuote (s : String) : String :=
  if s.data.isEmpty then String.mk [chSQ, chSQ]
  else if s.data.all isShellSafe then s
  else String.mk ([chSQ] ++
    (s.data.flatMap fun c => if c = chSQ then [chSQ, chDQ, chSQ, chDQ, chSQ] else [c]) ++ [chSQ])

/-- The shell utilities the program links. -/
def goShell : Shell := { Split := shlexSplit, Quote := shellescapeQuote }

/-! ## `connection.go`: elevation formatters -/

/-- Go `strings.Contains(p, "=")`. -/
def containsEq (p : String) : Bool := decide (chEq ∈ p.data)

/-- Go `sudoNoop`. -/
def sudoNoop (cmd : String) : String := cmd

/-- The first loop of `sudoSudo`: `i` is the loop index, `idx` the variable of that name;
the loop stops at the first part without an equals sign. -/
def sudoIdx : List String → Nat → Nat → Nat
  | [], _, idx => idx
  | p :: ps, i, idx => if containsEq p then sudoIdx ps (i + 1) (i + 1) else idx

/-- Go `sudoSudo`. -/
def sudoSudo (sh : Shell) (cmd : String) : String :=
  match sh.Split cmd with
  | (_, some _) => "sudo -s -- " ++ cmd
  | (parts, none) =>
    let idx := sudoIdx parts 0 0
    if idx = 0 then "sudo -s -- " ++ cmd
    else
      let quoted := parts.map sh.Quote
      "sudo -s " ++ " ".intercalate (quoted.take idx) ++ " -- " ++
        " ".intercalate (quoted.drop idx)

/-- Go `sudoDoas`. -/
def sudoDoas (cmd : String) : String := "doas -s -- " ++ cmd

/-- Go `sudoWindows`. -/
def sudoWindows (cmd : String) : String := "runas /user:Administrator " ++ cmd

/-- Go `sudoCheckWindows`. -/
def sudoCheckWindows : String :=
  "whoami | findstr /i " ++ String.mk [chDQ] ++ "administrator" ++ String.mk [chDQ]

/-- Go `type sudofn func(string) string`. -/
abbrev sudofn : Type := String → String

/-- Go `sudoChecks`, the entries in the order they are written. -/
def sudoChecks (sh : Shell) : List (String × sudofn) :=
  [ ("[ " ++ String.mk [chDQ] ++ "$(id -u)" ++ String.mk [chDQ] ++ " = 0 ]", sudoNoop),
    ("sudo -n true", sudoSudo sh),
    ("doas -n true", sudoDoas) ]

/-! ## `connection.go`: data model

Go pointers are addresses (`Ptr`).  The memory the package itself reads is the `Localhost`
objects; everything else behind a transport (the `WinRM` and `SSH` objects, sessions, the
hosts) is the transports' own state, of an arbitrary type `σ`. -/

/-- An address. -/
abbrev Ptr : Type := Nat

/-- The `Localhost` descriptor; `defaultClient` shows its field `Enabled`. -/
structure Localhost where
  Enabled : Bool
  deriving DecidableEq, Repr

/-- A non-nil value of the interface `client`: the dynamic type and the pointer.  The nil
interface is `none` of `Option client`. -/
inductive client where
  | WinRM (p : Ptr)
  | Localhost (p : Ptr)
  | SSH (p : Ptr)
  deriving DecidableEq, Repr

/-- An `exec.Option` value: one given by the caller, or `exec.Output(&output)`. -/
inductive ExecOption where
  | given (id : Nat)
  | Output
  deriving DecidableEq, Repr

/-- Modelled from the spec: the error values of the package, whose declarations are outside
the embedded files.  Five kinds form the taxonomy; `Wrapf` and `Wrap` keep the kind and the
underlying cause, `WrapMsg` is `Wrapf` with a message and no cause, `foreign` is an error
value made outside the package (a transport, a resolver, the defaulting library). -/
inductive error where
  | ErrNotConnected
  | ErrCommandFailed
  | ErrUploadFailed
  | ErrSudoRequired
  | ErrValidationFailed
  | foreign (msg : String)
  | Wrapf (kind : error) (format : String) (cause : error)
  | WrapMsg (kind : error) (msg : String)
  | Wrap (kind : error) (cause : error)
  deriving DecidableEq, Repr

/-- Modelled from the spec: `errors.Is`, following the kind and the cause of a wrapped
error. -/
def error.Is : error → error → Bool
  | error.Wrapf k f c, t =>
    decide (error.Wrapf k f c = t) || error.Is k t || error.Is c t
  | error.WrapMsg k m, t => decide (error.WrapMsg k m = t) || error.Is k t
  | error.Wrap k c, t => decide (error.Wrap k c = t) || error.Is k t || error.Is c t
  | e, t => decide (e = t)

/-- Go `Connection`. -/
structure Connection where
  WinRM : Option Ptr
  SSH : Option Ptr
  Localhost : Option Ptr
  OSVersion : Option Rig.OSVersion
  client : Option Rig.client
  sudofunc : Option sudofn

/-- A call the package makes on a collaborator that can change state. -/
inductive Call where
  | Connect (cl : client)
  | Disconnect (cl : client)
  | Exec (cl : client) (cmd : String) (opts : List ExecOption)
  | ExecInteractive (cl : client) (cmd : String)
  | Upload (cl : client) (src dst : String) (opts : List ExecOption)
  | GetOSVersion
  | defaultsSet
  deriving DecidableEq, Repr

/-- Everything outside the `Connection` value: the `Localhost` objects, the next unused
address, the transports' state, and the calls made on the collaborators so far (latest
last). -/
structure World (σ : Type) where
  localhost : Ptr → Localhost
  next : Ptr
  ext : σ
  calls : List Call

/-- The interface `client` as implemented by the transports: the package does not look
inside.  `Exec` also gives the text the command wrote to its standard output. -/
structure Transport (σ : Type) where
  Connect : client → σ → Option error × σ
  Disconnect : client → σ → σ
  Upload : client → String → String → List ExecOption → σ → Option error × σ
  IsWindows : client → σ → Bool
  Exec : client → String → List ExecOption → σ → (Option error × String) × σ
  ExecInteractive : client → String → σ → Option error × σ
  Protocol : client → σ → String
  IPAddress : client → σ → String
  IsConnected : client → σ → Bool
  String : client → σ → String

/-- The collaborators of a `Connection`.
* `T`: the transports.
* `defaultsObject`: what `defaults.Set` does to a `WinRM` or `SSH` object.
* `enabledTag`: the default `defaults.Set` gives the field `Enabled` of a `Localhost`
  (false when there is none).
* `defaultsFields`: the walk of `defaults.Set(c)` over the fields of the `Connection`; it can
  update the objects the descriptors point to and it can fail.
* `GetOSVersion`: Modelled from the spec: the OS identity resolver `GetOSVersion(c)`, which
  runs probes through the transport and gives an identity or an error.
* `sh`: the shell utilities.
* `mapOrder`: the order in which `range sudoChecks` visits the entries of the map. -/
structure Env (σ : Type) where
  T : Transport σ
  defaultsObject : client → σ → σ
  enabledTag : Bool
  defaultsFields : Connection → (Ptr → Localhost) × σ → Option error × (Ptr → Localhost) × σ
  GetOSVersion : Connection → σ → (Except error OSVersion) × σ
  sh : Shell
  mapOrder : List (Fin 3)

/-- Add a call to the record of calls. -/
def World.log {σ : Type} (w : World σ) (k : Call) : World σ :=
  { w with calls := w.calls ++ [k] }

/-- Go `configuredClient`. -/
def configuredClient (c : Connection) : Option client :=
  match c.WinRM with
  | some p => some (client.WinRM p)
  | none =>
    match c.Localhost with
    | some p => some (client.Localhost p)
    | none =>
      match c.SSH with
      | some p => some (client.SSH p)
      | none => none

/-- Go `defaultClient`: a new `Localhost` object with `Enabled: true`, at the next unused
address. -/
def defaultClient {σ : Type} (w : World σ) : client × World σ :=
  (client.Localhost w.next,
    { w with
      localhost := fun p => if p = w.next then { Enabled := true } else w.localhost p
      next := w.next + 1 })

/-- The external `defaults.Set(c.client)`: unset fields of the object get their defaults; a
field that is set is left as it is.  Its error is discarded by the caller. -/
def defaultsSetClient {σ : Type} (E : Env σ) (cl : client) (w : World σ) : World σ :=
  match cl with
  | client.Localhost p =>
    { w with
      localhost := fun q =>
        if q = p then
          { Enabled := if (w.localhost p).Enabled then true else E.enabledTag }
        else w.localhost q }
  | cl => { w with ext := E.defaultsObject cl w.ext }

/-- Go `SetDefaults`. -/
def SetDefaults {σ : Type} (E : Env σ) (c : Connection) (w : World σ) :
    Connection × World σ :=
  match c.client with
  | some _ => (c, w)
  | none =>
    match configuredClient c with
    | some cl => ({ c with client := some cl }, defaultsSetClient E cl w)
    | none =>
      let r := defaultClient w
      ({ c with client := some r.1 }, defaultsSetClient E r.1 r.2)

/-- The external `defaults.Set(c)` on a `Connection`: the walk over the fields, then, when
it did not fail, the call of the method `SetDefaults`. -/
def defaultsSet {σ : Type} (E : Env σ) (c : Connection) (w : World σ) :
    Option error × Connection × World σ :=
  let w0 := w.log Call.defaultsSet
  match E.defaultsFields c (w0.localhost, w0.ext) with
  | (some e, h, s) => (some e, c, { w0 with localhost := h, ext := s })
  | (none, h, s) =>
    let r := SetDefaults E c { w0 with localhost := h, ext := s }
    (none, r.1, r.2)

/-- Go `Protocol`. -/
def Protocol {σ : Type} (E : Env σ) (c : Connection) (w : World σ) : String :=
  match c.client with
  | some cl => E.T.Protocol cl w.ext
  | none =>
    match configuredClient c with
    | some cl => E.T.Protocol cl w.ext
    | none => ""

/-- Go `Address`. -/
def Address {σ : Type} (E : Env σ) (c : Connection) (w : World σ) : String :=
  match c.client with
  | some cl => E.T.IPAddress cl w.ext
  | none =>
    match configuredClient c with
    | some cl => E.T.IPAddress cl w.ext
    | none => ""

/-- Go `IsConnected`. -/
def IsConnected {σ : Type} (E : Env σ) (c : Connection) (w : World σ) : Bool :=
  match c.client with
  | none => false
  | some cl => E.T.IsConnected cl w.ext

/-- Go `checkConnected`. -/
def checkConnected {σ : Type} (E : Env σ) (c : Connection) (w : World σ) : Option error :=
  if !IsConnected E c w then some error.ErrNotConnected else none

/-- A method call on the interface value `c.client`: a run-time panic on the nil
interface. -/
def theClient (c : Connection) : Res client :=
  match c.client with
  | some cl => Res.ok cl
  | none => Res.panic "invalid memory address or nil pointer dereference"

/-- Go `IsWindows`. -/
def IsWindows {σ : Type} (E : Env σ) (c : Connection) (w : World σ) : Res Bool :=
  match (if !IsConnected E c w then configuredClient c else none) with
  | some cl => Res.ok (E.T.IsWindows cl w.ext)
  | none =>
    match theClient c with
    | Res.panic m => Res.panic m
    | Res.ok cl => Res.ok (E.T.IsWindows cl w.ext)

/-- Go `unicode.IsSpace`. -/
def isSpace (c : Char) : Bool :=
  let n := c.toNat
  (9 ≤ n && n ≤ 13) || n = 32 || n = 133 || n = 160 || n = 5760 ||
    (8192 ≤ n && n ≤ 8202) || n = 8232 || n = 8233 || n = 8239 || n = 8287 || n = 12288

/-- Go `strings.TrimSpace`. -/
def TrimSpace (s : String) : String :=
  String.mk ((s.data.dropWhile isSpace).reverse.dropWhile isSpace).reverse

/-- Go `Exec`: the returned error, the text the call stored through an `exec.Output` option
(empty when there is no such option or no call was made), and the world afterwards. -/
def Exec {σ : Type} (E : Env σ) (c : Connection) (cmd : String) (opts : List ExecOption)
    (w : World σ) : Res (Option error × String × World σ) :=
  match checkConnected E c w with
  | some err => Res.ok (some err, "", w)
  | none =>
    match theClient c with
    | Res.panic m => Res.panic m
    | Res.ok cl =>
      let r := E.T.Exec cl cmd opts w.ext
      let w1 := ({ w with ext := r.2 }).log (Call.Exec cl cmd opts)
      let out := if ExecOption.Output ∈ opts then r.1.2 else ""
      match r.1.1 with
      | some err => Res.ok (some (error.Wrapf error.ErrCommandFailed "client exec: %w" err), out, w1)
      | none => Res.ok (none, out, w1)

/-- Go `ExecOutput`: the returned text and error, and the world afterwards. -/
def ExecOutput {σ : Type} (E : Env σ) (c : Connection) (cmd : String)
    (opts : List ExecOption) (w : World σ) : Res (String × Option error × World σ) :=
  match checkConnected E c w with
  | some err => Res.ok ("", some err, w)
  | none =>
    match Exec E c cmd (opts ++ [ExecOption.Output]) w with
    | Res.panic m => Res.panic m
    | Res.ok (err, output, w1) => Res.ok (TrimSpace output, err, w1)

/-- Go `ExecInteractive`. -/
def ExecInteractive {σ : Type} (E : Env σ) (c : Connection) (cmd : String) (w : World σ) :
    Res (Option error × World σ) :=
  match checkConnected E c w with
  | some err => Res.ok (some err, w)
  | none =>
    match theClient c with
    | Res.panic m => Res.panic m
    | Res.ok cl =>
      let r := E.T.ExecInteractive cl cmd w.ext
      let w1 := ({ w with ext := r.2 }).log (Call.ExecInteractive cl cmd)
      match r.1 with
      | some err =>
        Res.ok (some (error.Wrapf error.ErrCommandFailed "client exec interactive: %w" err), w1)
      | none => Res.ok (none, w1)

/-- Go `Upload`. -/
def Upload {σ : Type} (E : Env σ) (c : Connection) (src dst : String)
    (opts : List ExecOption) (w : World σ) : Res (Option error × World σ) :=
  match checkConnected E c w with
  | some err => Res.ok (some err, w)
  | none =>
    match theClient c with
    | Res.panic m => Res.panic m
    | Res.ok cl =>
      let r := E.T.Upload cl src dst opts w.ext
      let w1 := ({ w with ext := r.2 }).log (Call.Upload cl src dst opts)
      match r.1 with
      | some err => Res.ok (some (error.Wrap error.ErrUploadFailed err), w1)
      | none => Res.ok (none, w1)

/-- The entries of `sudoChecks` in the order `range` visits them. -/
def rangeSudoChecks {σ : Type} (E : Env σ) : List (String × sudofn) :=
  E.mapOrder.filterMap fun i => (sudoChecks E.sh).get? i.val

/-- The loop `for check, fn := range sudoChecks` of `configureSudo` over the entries still
to come. -/
def sudoLoop {σ : Type} (E : Env σ) (c : Connection) :
    List (String × sudofn) → World σ → Res (Connection × World σ)
  | [], w => Res.ok (c, w)
  | (check, fn) :: rest, w =>
    match Exec E c check [] w with
    | Res.panic m => Res.panic m
    | Res.ok (none, _, w1) => Res.ok ({ c with sudofunc := some fn }, w1)
    | Res.ok (some _, _, w1) => sudoLoop E c rest w1

/-- Go `configureSudo`. -/
def configureSudo {σ : Type} (E : Env σ) (c : Connection) (w : World σ) :
    Res (Connection × World σ) :=
  match c.OSVersion with
  | none => Res.panic "invalid memory address or nil pointer dereference"
  | some o =>
    if o.ID = "windows" then
      match Exec E c sudoCheckWindows [] w with
      | Res.panic m => Res.panic m
      | Res.ok (none, _, w1) => Res.ok ({ c with sudofunc := some sudoWindows }, w1)
      | Res.ok (some _, _, w1) => Res.ok (c, w1)
    else sudoLoop E c (rangeSudoChecks E) w

/-- The first statement of `Connect`, the defaulting step: `defaults.Set(c)` when there is no
transport instance; its error, and the `Connection` and the world afterwards. -/
def connectDefaults {σ : Type} (E : Env σ) (c : Connection) (w : World σ) :
    Option error × Connection × World σ :=
  match c.client with
  | none => defaultsSet E c w
  | some _ => (none, c, w)

/-- Go `Connect`: the returned error, and the `Connection` and the world afterwards.  The
debug log line of the failure branch has no effect on either and is left out. -/
def Connect {σ : Type} (E : Env σ) (c : Connection) (w : World σ) :
    Res (Option error × Connection × World σ) :=
  match connectDefaults E c w with
  | (some err, c1, w1) =>
    Res.ok (some (error.Wrapf error.ErrValidationFailed "set defaults: %w" err), c1, w1)
  | (none, c1, w1) =>
    match theClient c1 with
    | Res.panic m => Res.panic m
    | Res.ok cl =>
      match E.T.Connect cl w1.ext with
      | (some err, s) =>
        Res.ok (some (error.Wrapf error.ErrNotConnected "client connect: %w" err),
          { c1 with client := none }, ({ w1 with ext := s }).log (Call.Connect cl))
      | (none, s) =>
        let w2 := ({ w1 with ext := s }).log (Call.Connect cl)
        match c1.OSVersion with
        | some _ =>
          match configureSudo E c1 w2 with
          | Res.panic m => Res.panic m
          | Res.ok (c3, w3) => Res.ok (none, c3, w3)
        | none =>
          match E.GetOSVersion c1 w2.ext with
          | (Except.error err, s3) =>
            Res.ok (some err, c1, ({ w2 with ext := s3 }).log Call.GetOSVersion)
          | (Except.ok o, s3) =>
            match configureSudo E { c1 with OSVersion := some o }
                (({ w2 with ext := s3 }).log Call.GetOSVersion) with
            | Res.panic m => Res.panic m
            | Res.ok (c3, w3) => Res.ok (none, c3, w3)

/-- The error `Sudo` returns: `ErrSudoRequired.Wrapf` with its message. -/
def sudoRequired : error :=
  error.WrapMsg error.ErrSudoRequired
    "user is not an administrator and passwordless access elevation has not been configured"

/-- Go `Sudo`: the returned text and error. -/
def Sudo (c : Connection) (cmd : String) : String × Option error :=
  match c.sudofunc with
  | none => ("", some sudoRequired)
  | some f => (f cmd, none)

/-- Go `Disconnect`. -/
def Disconnect {σ : Type} (E : Env σ) (c : Connection) (w : World σ) :
    Connection × World σ :=
  match c.client with
  | some cl =>
    ({ c with client := none },
      ({ w with ext := E.T.Disconnect cl w.ext }).log (Call.Disconnect cl))
  | none => ({ c with client := none }, w)

/-! ## Concrete collaborators used to run the embedding on examples -/

/-- A transport whose state is one flag, the liveness it reports.  `Connect` succeeds and
sets the flag exactly on a `WinRM` or `Localhost` object; on an `SSH` object it fails.
Commands succeed exactly when the command is `doas -n true`. -/
def flagTransport : Transport Bool where
  Connect := fun cl _ =>
    match cl with
    | client.SSH _ => (some (error.foreign "dial tcp: connection refused"), false)
    | _ => (none, true)
  Disconnect := fun _ _ => false
  Upload := fun _ _ _ _ s => (none, s)
  IsWindows := fun _ _ => false
  Exec := fun _ cmd _ s =>
    ((if cmd = "doas -n true" then none else some (error.foreign "exit status 1"), ""), s)
  ExecInteractive := fun _ _ s => (none, s)
  Protocol := fun _ _ => "flag"
  IPAddress := fun _ _ => "127.0.0.1"
  IsConnected := fun _ s => s
  String := fun _ _ => "[flag] 127.0.0.1"

/-- An OS identity of a Linux host. -/
def alpineOS : OSVersion :=
  { ID := "alpine", IDLike := "", Version := "3.19", Name := "Alpine" }

/-- Collaborators around `flagTransport`: defaulting changes nothing and does not fail; the
resolver reports a fixed Linux identity. -/
def flagEnv : Env Bool where
  T := flagTransport
  defaultsObject := fun _ s => s
  enabledTag := false
  defaultsFields := fun _ m => (none, m)
  GetOSVersion := fun _ s => (Except.ok alpineOS, s)
  sh := goShell
  mapOrder := [0, 1, 2]

/-- A `Connection` as created: no descriptor, nothing set. -/
def emptyConnection : Connection :=
  { WinRM := none, SSH := none, Localhost := none, OSVersion := none, client := none,
    sudofunc := none }

/-- A world as found at the start: no object changed, no call made. -/
def initWorld {σ : Type} (s : σ) : World σ :=
  { localhost := fun _ => { Enabled := false }, next := 0, ext := s, calls := [] }

/-! ## Definitions used to state the properties -/

/-- The `Connection` with the given descriptors, OS identity, transport instance and
elevation strategy. -/
def mkConnection (W L S : Option Ptr) (o : Option OSVersion) (cl : Option client)
    (f : Option sudofn) : Connection :=
  { WinRM := W, SSH := S, Localhost := L, OSVersion := o, client := cl, sudofunc := f }

/-- Number of calls of the OS resolver recorded in a world. -/
def resolverCalls {σ : Type} (w : World σ) : Nat := w.calls.count Call.GetOSVersion

/-- The lines of a text, whatever their length: a line ends at a line feed or at the end of
the text, and one carriage return before the line end is not part of the line. -/
def textFrom : List Char → List Char → List (List Char)
  | [], acc => if acc.isEmpty then [] else [dropCR acc.reverse]
  | c :: cs, acc =>
    if c = chLF then dropCR acc.reverse :: textFrom cs []
    else textFrom cs (c :: acc)

/-- The lines of a text. -/
def textLines (s : String) : List String :=
  (textFrom s.data []).map String.mk

/-- The key of a line: the text before its first equals sign. -/
def lineKey (l : String) : String :=
  String.mk (l.data.takeWhile fun c => c != chEq)

/-- The value of a line: the text after its first equals sign. -/
def lineValue (l : String) : String :=
  String.mk ((l.data.dropWhile fun c => c != chEq).drop 1)

/-- The value of the last line with the given key, if there is one. -/
def lastValue (key : String) : List String → Option String
  | [] => none
  | l :: ls =>
    match lastValue key ls with
    | some v => some v
    | none => if lineKey l = key then some (lineValue l) else none

/-- Shell-style unquoting as the specification words it: when the value is enclosed in a
pair of double quotes or a pair of single quotes, with no such quote in between, the
surrounding quotes are removed; any other value is kept as the raw token. -/
def specUnquote (v : String) : String :=
  match v.data with
  | [] => v
  | q :: rest =>
    if (q = chDQ ∨ q = chSQ) ∧ rest.getLast? = some q ∧ q ∉ rest.dropLast then
      String.mk rest.dropLast
    else v

/-- The four keys `parseOSReleaseFile` recognises. -/
abbrev recognisedKey (k : String) : Prop :=
  k = "ID" ∨ k = "ID_LIKE" ∨ k = "VERSION_ID" ∨ k = "PRETTY_NAME"

/-- A value without backslash that does not start with a back quote and is not a
single-quoted text of two or more characters. -/
abbrev plainlyQuoted (v : String) : Prop :=
  chBS ∉ v.data ∧ v.data.head? ≠ some chBQ ∧
    ¬ (v.data.head? = some chSQ ∧ v.data.getLast? = some chSQ ∧ 4 ≤ v.data.length)

/-- A field after parsing, as the specification words it: the shell-unquoted value of the
last line with its key, or the prior value when no line has the key. -/
def specField (key : String) (lines : List String) (prior : String) : String :=
  match lastValue key lines with
  | some v => specUnquote v
  | none => prior

/-- The record the specification describes for the given lines. -/
def specParse (lines : List String) (os : OSVersion) : OSVersion :=
  { ID := specField "ID" lines os.ID
    IDLike := specField "ID_LIKE" lines os.IDLike
    Version := specField "VERSION_ID" lines os.Version
    Name := specField "PRETTY_NAME" lines os.Name }

/-- A line of `n + 2` bytes with an equals sign. -/
def longLineOf (n : Nat) : List Char := List.replicate n 'a' ++ [chEq, 'b']

/-- A line of 65538 bytes with an equals sign. -/
def longLine : List Char := longLineOf MaxScanTokenSize

/-- A text of two lines, the first one `longLine`, the second one `ID=x`. -/
def longText : String := String.mk (longLine ++ chLF :: "ID=x".data)

/-- The record with four empty fields. -/
def emptyOS : OSVersion := { ID := "", IDLike := "", Version := "", Name := "" }

/-- The escape path of `strconv.Unquote` never taken. -/
def noEsc : String → Option String := fun _ => none

/-- The one line `ID=` followed by `x` between two back quotes. -/
def backQuotedText : String := String.mk ("ID=".data ++ [chBQ, 'x', chBQ])

/-- The os-release text of the specification. -/
def ubuntuText : String :=
  "ID=ubuntu\nID_LIKE=\"debian\"\nVERSION_ID=\"22.04\"\nPRETTY_NAME=\"Ubuntu 22.04.3 LTS\""

/-- The number of leading words that contain an equals sign. -/
def leadingAssignments (parts : List String) : Nat :=
  (parts.takeWhile containsEq).length

/-- The sudo formatter as the specification words it: the plain form when tokenization fails
or the first word has no equals sign; else the leading assignments, each quoted, then the
separator, then the remaining words as they are. -/
def sudoSudoSpec (sh : Shell) (cmd : String) : String :=
  match sh.Split cmd with
  | (_, some _) => "sudo -s -- " ++ cmd
  | (parts, none) =>
    match parts with
    | [] => "sudo -s -- " ++ cmd
    | p :: _ =>
      if containsEq p then
        "sudo -s " ++ " ".intercalate ((parts.take (leadingAssignments parts)).map sh.Quote)
          ++ " -- " ++ " ".intercalate (parts.drop (leadingAssignments parts))
      else "sudo -s -- " ++ cmd

/-- The sudo formatter of the specification with the remaining words quoted one by one as
well. -/
def sudoSudoQuoted (sh : Shell) (cmd : String) : String :=
  match sh.Split cmd with
  | (_, some _) => "sudo -s -- " ++ cmd
  | (parts, none) =>
    match parts with
    | [] => "sudo -s -- " ++ cmd
    | p :: _ =>
      if containsEq p then
        "sudo -s " ++ " ".intercalate ((parts.take (leadingAssignments parts)).map sh.Quote)
          ++ " -- "
          ++ " ".intercalate ((parts.drop (leadingAssignments parts)).map sh.Quote)
      else "sudo -s -- " ++ cmd

/-! ## `resolver.go`: resolver selection and the Windows strategy

`resolver.go` calls three methods of `*Connection`: `IsWindows` with an error result, `Exec`
and `ExecWithOutput`.  `connection.go` declares `IsWindows` without error result and has no
`ExecWithOutput`, so the three methods are taken the way `resolver.go` calls them
(`Runner`), over a host state of an arbitrary type `σ`. -/

/-- A call made on a runner. -/
inductive RunCall where
  | IsWindows
  | Exec (cmd : String)
  | ExecWithOutput (cmd : String)
  | ExecReader (cmd : String)
  | Decode
  deriving DecidableEq, Repr

/-- The state of the host behind a runner, and the calls made on the runner so far (latest
last). -/
structure Host (σ : Type) where
  ext : σ
  trace : List RunCall

/-- The methods of `*Connection` that `resolver.go` calls. -/
structure Runner (σ : Type) where
  IsWindows : σ → (Bool × Option error) × σ
  Exec : String → σ → Option error × σ
  ExecWithOutput : String → σ → (String × Option error) × σ

/-- The call `c.IsWindows()` of `resolver.go`. -/
def Runner.callIsWindows {σ : Type} (R : Runner σ) (h : Host σ) :
    (Bool × Option error) × Host σ :=
  ((R.IsWindows h.ext).1, { ext := (R.IsWindows h.ext).2, trace := h.trace ++ [RunCall.IsWindows] })

/-- The call `c.Exec(cmd)` of `resolver.go`. -/
def Runner.callExec {σ : Type} (R : Runner σ) (cmd : String) (h : Host σ) :
    Option error × Host σ :=
  ((R.Exec cmd h.ext).1, { ext := (R.Exec cmd h.ext).2, trace := h.trace ++ [RunCall.Exec cmd] })

/-- The call `c.ExecWithOutput(cmd)` of `resolver.go`. -/
def Runner.callExecWithOutput {σ : Type} (R : Runner σ) (cmd : String) (h : Host σ) :
    (String × Option error) × Host σ :=
  ((R.ExecWithOutput cmd h.ext).1,
    { ext := (R.ExecWithOutput cmd h.ext).2,
      trace := h.trace ++ [RunCall.ExecWithOutput cmd] })

/-- The three implementations of the interface `Resolver`. -/
inductive Resolver where
  | LinuxResolver
  | WindowsResolver
  | DarwinResolver
  deriving DecidableEq, Repr

/-- Go `GetResolver`: the resolver (`none` for nil), the error, and the host afterwards. -/
def GetResolver {σ : Type} (R : Runner σ) (h : Host σ) :
    (Option Resolver × Option error) × Host σ :=
  match R.callIsWindows h with
  | ((_, some err), h1) => ((none, some err), h1)
  | ((true, none), h1) => ((some Resolver.WindowsResolver, none), h1)
  | ((false, none), h1) =>
    match R.callExec "uname | grep -q Darwin" h1 with
    | (none, h2) => ((some Resolver.DarwinResolver, none), h2)
    | (some _, h2) => ((some Resolver.LinuxResolver, none), h2)

/-- The registry query for one property of the Windows version, before `ps.Cmd`. -/
def regQuery (prop : String) : String :=
  "(Get-ItemProperty \"HKLM:\\SOFTWARE\\Microsoft\\Windows NT\\CurrentVersion\")." ++ prop

/-- The zero value of `OSVersion`. -/
def zeroOSVersion : OSVersion := { ID := "", IDLike := "", Version := "", Name := "" }

/-- Go `WindowsResolver.Resolve`: the named results `os` and `err`, and the host afterwards.
`psCmd` is `ps.Cmd` of the package `powershell`. -/
def WindowsResolve {σ : Type} (psCmd : String → String) (R : Runner σ) (h : Host σ) :
    (OSVersion × Option error) × Host σ :=
  match R.callExecWithOutput (psCmd (regQuery "ProductName")) h with
  | ((_, some err), h1) => ((zeroOSVersion, some err), h1)
  | ((osName, none), h1) =>
    match R.callExecWithOutput (psCmd (regQuery "CurrentMajorVersionNumber")) h1 with
    | ((_, some err), h2) => ((zeroOSVersion, some err), h2)
    | ((osMajor, none), h2) =>
      match R.callExecWithOutput (psCmd (regQuery "CurrentMinorVersionNumber")) h2 with
      | ((_, some err), h3) => ((zeroOSVersion, some err), h3)
      | ((osMinor, none), h3) =>
        match R.callExecWithOutput (psCmd (regQuery "CurrentBuild")) h3 with
        | ((_, some err), h4) => ((zeroOSVersion, some err), h4)
        | ((osBuild, none), h4) =>
          (({ ID := "windows", IDLike := "windows",
              Version := osMajor ++ "." ++ osMinor ++ "." ++ osBuild, Name := osName }, none),
            h4)

/-! ## `os/linux.go` -/

/-- The interface `cmd.SimpleRunner` as `ResolveLinux` uses it, with the decoder of the
package `kv`: `ExecReader` gives a reader of type `rd`, and `Decode` reads it into a
`Release` value of type `ρ`, starting from the zero value `zero`.  All of it is declared
outside the embedded files. -/
structure SimpleRunner (σ ρ rd : Type) where
  IsWindows : σ → Bool
  Exec : String → σ → Option error × σ
  ExecReader : String → σ → rd × σ
  zero : ρ
  Decode : rd → ρ → σ → (ρ × Option error) × σ

/-- Go `ResolveLinux`: the pointer to the record (`none` for nil) and the flag, and the host
afterwards.  The trace lines have no effect and are left out. -/
def ResolveLinux {σ ρ rd : Type} (conn : SimpleRunner σ ρ rd) (h : Host σ) :
    (Option ρ × Bool) × Host σ :=
  if conn.IsWindows h.ext then ((none, false), h)
  else
    match conn.Exec "uname | grep -q Linux" h.ext with
    | (some _, s1) =>
      ((none, false), { ext := s1, trace := h.trace ++ [RunCall.Exec "uname | grep -q Linux"] })
    | (none, s1) =>
      match conn.ExecReader "cat /etc/os-release || cat /usr/lib/os-release" s1 with
      | (reader, s2) =>
        match conn.Decode reader conn.zero s2 with
        | ((_, some _), s3) =>
          ((none, false),
            { ext := s3
              trace := h.trace ++ [RunCall.Exec "uname | grep -q Linux",
                RunCall.ExecReader "cat /etc/os-release || cat /usr/lib/os-release",
                RunCall.Decode] })
        | ((version, none), s3) =>
          ((some version, true),
            { ext := s3
              trace := h.trace ++ [RunCall.Exec "uname | grep -q Linux",
                RunCall.ExecReader "cat /etc/os-release || cat /usr/lib/os-release",
                RunCall.Decode] })

/-! ## `connection.go`: `GroupParams` -/

/-- A value of type `any` passed to `Execf`: a nested `[]any`, an `exec.Option`, or a value
of any other type (`α`). -/
inductive Param (α : Type) where
  | list (ps : List (Param α))
  | option (o : ExecOption)
  | value (v : α)

/-- Go `GroupParams`. -/
def GroupParams {α : Type} : List (Param α) → List ExecOption × List α
  | [] => ([], [])
  | Param.list vv :: rest =>
    ((GroupParams vv).1 ++ (GroupParams rest).1, (GroupParams vv).2 ++ (GroupParams rest).2)
  | Param.option vv :: rest => (vv :: (GroupParams rest).1, (GroupParams rest).2)
  | Param.value vv :: rest => ((GroupParams rest).1, vv :: (GroupParams rest).2)

/-- The leaves of a parameter list, nested lists flattened depth first, left to right: an
option or another value each. -/
def leaves {α : Type} : List (Param α) → List (ExecOption ⊕ α)
  | [] => []
  | Param.list vv :: rest => leaves vv ++ leaves rest
  | Param.option o :: rest => Sum.inl o :: leaves rest
  | Param.value v :: rest => Sum.inr v :: leaves rest

/-- The option-typed leaves, in their order. -/
def optionLeaves {α : Type} (ps : List (Param α)) : List ExecOption :=
  (leaves ps).filterMap Sum.getLeft?

/-- All other leaves, in their order. -/
def valueLeaves {α : Type} (ps : List (Param α)) : List α :=
  (leaves ps).filterMap Sum.getRight?

/-! ## Sequences of calls on a `Connection` -/

/-- A call of one of the methods of `Connection`. -/
inductive Op where
  | SetDefaults
  | Connect
  | Disconnect
  | Exec (cmd : String) (opts : List ExecOption)
  | Upload (src dst : String) (opts : List ExecOption)
  | Sudo (cmd : String)
  | IsWindows

/-- The `Connection` and the world after one call, whatever the call returns; a panic ends
the program. -/
def step {σ : Type} (E : Env σ) (op : Op) (st : Connection × World σ) :
    Res (Connection × World σ) :=
  match op with
  | Op.SetDefaults => Res.ok (SetDefaults E st.1 st.2)
  | Op.Connect =>
    match Connect E st.1 st.2 with
    | Res.panic m => Res.panic m
    | Res.ok r => Res.ok (r.2.1, r.2.2)
  | Op.Disconnect => Res.ok (Disconnect E st.1 st.2)
  | Op.Exec cmd opts =>
    match Exec E st.1 cmd opts st.2 with
    | Res.panic m => Res.panic m
    | Res.ok r => Res.ok (st.1, r.2.2)
  | Op.Upload src dst opts =>
    match Upload E st.1 src dst opts st.2 with
    | Res.panic m => Res.panic m
    | Res.ok r => Res.ok (st.1, r.2)
  | Op.Sudo _ => Res.ok st
  | Op.IsWindows =>
    match IsWindows E st.1 st.2 with
    | Res.panic m => Res.panic m
    | Res.ok _ => Res.ok st

/-- The `Connection` and the world after a sequence of calls. -/
def run {σ : Type} (E : Env σ) : List Op → Connection × World σ → Res (Connection × World σ)
  | [], st => Res.ok st
  | op :: ops, st =>
    match step E op st with
    | Res.panic m => Res.panic m
    | Res.ok st1 => run E ops st1

/-! ## More concrete collaborators -/

/-- A transport whose state counts the calls of `Connect`.  It reports live once connected;
the command `doas -n true` succeeds during the first connection only, every other command
fails. -/
def fadingTransport : Transport Nat where
  Connect := fun _ n => (none, n + 1)
  Disconnect := fun _ n => n
  Upload := fun _ _ _ _ n => (none, n)
  IsWindows := fun _ _ => false
  Exec := fun _ cmd _ n =>
    ((if cmd = "doas -n true" ∧ n = 1 then none else some (error.foreign "exit status 1"), ""),
      n)
  ExecInteractive := fun _ _ n => (none, n)
  Protocol := fun _ _ => "fading"
  IPAddress := fun _ _ => "127.0.0.1"
  IsConnected := fun _ n => decide (0 < n)
  String := fun _ _ => "[fading] 127.0.0.1"

/-- Collaborators around `fadingTransport`. -/
def fadingEnv : Env Nat where
  T := fadingTransport
  defaultsObject := fun _ s => s
  enabledTag := false
  defaultsFields := fun _ m => (none, m)
  GetOSVersion := fun _ s => (Except.ok alpineOS, s)
  sh := goShell
  mapOrder := [0, 1, 2]

/-- Collaborators around `flagTransport` whose OS resolver fails. -/
def lostEnv : Env Bool where
  T := flagTransport
  defaultsObject := fun _ s => s
  enabledTag := false
  defaultsFields := fun _ m => (none, m)
  GetOSVersion := fun _ s => (Except.error (error.foreign "unable to determine host os"), s)
  sh := goShell
  mapOrder := [0, 1, 2]

/-- The transport instance the defaulting step installs on a `Connection` without one: the
configured descriptor, or a new `Localhost` at the next unused address. -/
def selected (c : Connection) (next : Ptr) : client :=
  match configuredClient c with
  | some d => d
  | none => client.Localhost next

/-- A host at the start: no call made. -/
def initHost {σ : Type} (s : σ) : Host σ := { ext := s, trace := [] }

/-- The text of a small number. -/
def numeral : Nat → String
  | 0 => "10"
  | 1 => "0"
  | 2 => "19045"
  | _ => "x"

/-- A runner over a host state that counts the commands run.  The platform report is
`win` and fails when `broken`; `Exec` succeeds exactly when `darwin`; `ExecWithOutput`
fails on the command number `failAt` (counting from 0) and else gives the text `numeral` has
for the number of the command. -/
def countRunner (win broken darwin : Bool) (failAt : Nat) : Runner Nat where
  IsWindows := fun n =>
    ((win, if broken then some (error.foreign "platform unknown") else none), n)
  Exec := fun _ n => (if darwin then none else some (error.foreign "exit status 1"), n + 1)
  ExecWithOutput := fun _ n =>
    ((numeral n, if n = failAt then some (error.foreign "query failed") else none), n + 1)

/-- A `cmd.SimpleRunner` over a host state without content: the platform report is `win`,
the probe succeeds exactly when `linux`, decoding gives the number 7 and succeeds exactly
when `readable`. -/
def plainRunner (win linux readable : Bool) : SimpleRunner Unit Nat Unit where
  IsWindows := fun _ => win
  Exec := fun _ s => (if linux then none else some (error.foreign "exit status 1"), s)
  ExecReader := fun _ s => ((), s)
  zero := 0
  Decode := fun _ _ s =>
    ((7, if readable then none else some (error.foreign "unexpected EOF")), s)

/-- A command with one leading assignment, a quoted word and a pipe. -/
def pipeCmd : String := "FOO=1 echo \"a b\" | grep a"

/-- The part of `pipeCmd` after its leading assignment. -/
def pipeRest : String := "echo \"a b\" | grep a"

/-- The host after the given commands were run with `ExecWithOutput`, one after the
other. -/
def hostAfter {σ : Type} (R : Runner σ) : List String → Host σ → Host σ
  | [], h => h
  | cmd :: cmds, h => hostAfter R cmds (R.callExecWithOutput cmd h).2

/-- The probes `configureSudo` issues on a host with the OS identity `o`, with the strategy
each one stands for: the Windows check alone on Windows, else the entries of `sudoChecks` in
the order `range` visits them. -/
def issuedProbes {σ : Type} (E : Env σ) (o : OSVersion) : List (String × sudofn) :=
  if o.ID = "windows" then [(sudoCheckWindows, sudoWindows)] else rangeSudoChecks E

/-- Whether every probe of the list fails when the probes are run one after the other with
`Exec`, starting in the world `w`: each `Exec` returns an error. -/
def allProbesFail {σ : Type} (E : Env σ) (c : Connection) :
    List (String × sudofn) → World σ → Bool
  | [], _ => true
  | (check, _) :: rest, w =>
    match Exec E c check [] w with
    | Res.ok (some _, _, w1) => allProbesFail E c rest w1
    | _ => false

/-- The `Connection` and the world after a `Connect` over `fadingTransport` with a
`Localhost` descriptor, followed by a `Disconnect`. -/
def reconnectStart : Connection × World Nat :=
  match Connect fadingEnv (mkConnection none (some 0) none none none none) (initWorld 0) with
  | Res.ok (_, c1, w1) => Disconnect fadingEnv c1 w1
  | Res.panic _ => (mkConnection none (some 0) none none none none, initWorld 0)

/-- The outcome of the defaulting step of the `Connect` that starts in `reconnectStart`. -/
def reconnectDefaulted : Option error × Connection × World Nat :=
  connectDefaults fadingEnv reconnectStart.1 reconnectStart.2

/-- The world in which the second `Connect` issues its probes: the transport has connected
(state 2) and the OS identity is cached, so no resolver ran. -/
def reconnectProbed : World Nat :=
  ({ reconnectDefaulted.2.2 with ext := 2 }).log (Call.Connect (client.Localhost 0))

/-- A `Connection` with a `Localhost` descriptor that never connected, over a
`fadingTransport` that has been connected once by someone else: its first `Connect` finds
every probe failing. -/
def lateStart : Connection × World Nat :=
  (mkConnection none (some 0) none none none none, initWorld 1)

/-- The outcome of the defaulting step of the `Connect` that starts in `lateStart`. -/
def lateDefaulted : Option error × Connection × World Nat :=
  connectDefaults fadingEnv lateStart.1 lateStart.2

/-- The world in which the `Connect` from `lateStart` issues its probes: after the
transport connect and the OS resolver. -/
def lateProbed : World Nat :=
  ({ ({ lateDefaulted.2.2 with ext := 2 }).log (Call.Connect (client.Localhost 0)) with
    ext := 2 }).log Call.GetOSVersion

/-- A character of a plain value: an ASCII letter or digit, a dot or a blank. -/
def plainChar (c : Char) : Bool := c.isAlphanum || c = '.' || c = ' '

/-! ## Transport selection and defaulting -/

/-- C1: `configuredClient` gives the WinRM descriptor when there is one, else the Localhost
descriptor, else the SSH descriptor, else nothing, whatever the other descriptors are;
`SetDefaults` on a `Connection` without transport instance installs that very descriptor
and changes no other field, or, with no descriptor at all, a `Localhost` object at a new
address whose `Enabled` is true; `SetDefaults` on a `Connection` with a transport instance
changes neither the `Connection` nor the world. -/
theorem C1_transport_selection {σ : Type} (E : Env σ) (w : World σ) (p : Ptr)
    (L S : Option Ptr) (o : Option OSVersion) (f : Option sudofn) (cl : client)
    (W : Option Ptr) :
    configuredClient (mkConnection (some p) L S o none f) = some (client.WinRM p) ∧
    configuredClient (mkConnection none (some p) S o none f) = some (client.Localhost p) ∧
    configuredClient (mkConnection none none (some p) o none f) = some (client.SSH p) ∧
    configuredClient (mkConnection none none none o none f) = none ∧
    (SetDefaults E (mkConnection (some p) L S o none f) w).1
      = mkConnection (some p) L S o (some (client.WinRM p)) f ∧
    (SetDefaults E (mkConnection none (some p) S o none f) w).1
      = mkConnection none (some p) S o (some (client.Localhost p)) f ∧
    (SetDefaults E (mkConnection none none (some p) o none f) w).1
      = mkConnection none none (some p) o (some (client.SSH p)) f ∧
    (SetDefaults E (mkConnection none none none o none f) w).1
      = mkConnection none none none o (some (client.Localhost w.next)) f ∧
    (SetDefaults E (mkConnection none none none o none f) w).2.localhost w.next
      = { Enabled := true } ∧
    (SetDefaults E (mkConnection none none none o none f) w).2.next = w.next + 1 ∧
    SetDefaults E (mkConnection W L S o (some cl) f) w
      = (mkConnection W L S o (some cl) f, w) := by
  refine ⟨rfl, rfl, rfl, rfl, rfl, rfl, rfl, rfl, ?_, rfl, rfl⟩
  simp [SetDefaults, mkConnection, configuredClient, defaultClient, defaultsSetClient]

/-! ## Operations on a `Connection` that is not connected -/

/-- C2: on a `Connection` that is not connected (`IsConnected` false: no transport instance,
or one that reports not live) `Exec`, `ExecInteractive` and `Upload` return
`ErrNotConnected`, `ExecOutput` returns the empty text and `ErrNotConnected`, and the world
is the one before: no call was made on the transport. -/
theorem C2_not_connected {σ : Type} (E : Env σ) (c : Connection) (w : World σ)
    (cmd src dst : String) (opts : List ExecOption) (h : IsConnected E c w = false) :
    Exec E c cmd opts w = Res.ok (some error.ErrNotConnected, "", w) ∧
    ExecOutput E c cmd opts w = Res.ok ("", some error.ErrNotConnected, w) ∧
    ExecInteractive E c cmd w = Res.ok (some error.ErrNotConnected, w) ∧
    Upload E c src dst opts w = Res.ok (some error.ErrNotConnected, w) := by
  simp [Exec, ExecOutput, ExecInteractive, Upload, checkConnected, h]

/-- Witness of C2: a `Connection` as created. -/
theorem C2_not_connected_witness :
    IsConnected flagEnv emptyConnection (initWorld false) = false ∧
    (Exec flagEnv emptyConnection "ls" [] (initWorld false)
        = Res.ok (some error.ErrNotConnected, "", initWorld false) ∧
      ExecOutput flagEnv emptyConnection "ls" [] (initWorld false)
        = Res.ok ("", some error.ErrNotConnected, initWorld false) ∧
      ExecInteractive flagEnv emptyConnection "ls" (initWorld false)
        = Res.ok (some error.ErrNotConnected, initWorld false) ∧
      Upload flagEnv emptyConnection "a" "b" [] (initWorld false)
        = Res.ok (some error.ErrNotConnected, initWorld false)) :=
  ⟨rfl, C2_not_connected flagEnv emptyConnection (initWorld false) "ls" "a" "b" [] rfl⟩

/-! ## Connect -/

theorem error_Is_refl (e : error) : error.Is e e = true := by
  cases e <;> simp [error.Is]

theorem resolverCalls_log {σ : Type} (w : World σ) (k : Call) (hk : k ≠ Call.GetOSVersion) :
    resolverCalls (w.log k) = resolverCalls w := by
  simp [resolverCalls, World.log, List.count_append, List.count_cons, hk]

theorem Exec_total {σ : Type} (E : Env σ) (c : Connection) (cmd : String)
    (opts : List ExecOption) (w : World σ) :
    ∃ r, Exec E c cmd opts w = Res.ok r ∧ resolverCalls r.2.2 = resolverCalls w := by
  unfold Exec checkConnected IsConnected theClient
  cases hcl : c.client with
  | none => exact ⟨_, rfl, rfl⟩
  | some cl =>
    dsimp only
    cases hlive : E.T.IsConnected cl w.ext with
    | false => exact ⟨_, rfl, rfl⟩
    | true =>
      cases herr : (E.T.Exec cl cmd opts w.ext).1.1 with
      | none => exact ⟨_, rfl, resolverCalls_log _ _ (by simp)⟩
      | some err => exact ⟨_, rfl, resolverCalls_log _ _ (by simp)⟩

theorem sudoLoop_total {σ : Type} (E : Env σ) (c : Connection)
    (l : List (String × sudofn)) (w : World σ) :
    ∃ r, sudoLoop E c l w = Res.ok r ∧ r.1.OSVersion = c.OSVersion ∧
      r.1.client = c.client ∧ resolverCalls r.2 = resolverCalls w := by
  induction l generalizing w with
  | nil => exact ⟨_, rfl, rfl, rfl, rfl⟩
  | cons a rest ih =>
    obtain ⟨check, fn⟩ := a
    obtain ⟨⟨e, out, w1⟩, hx, hr⟩ := Exec_total E c check [] w
    unfold sudoLoop
    rw [hx]
    cases e with
    | none => exact ⟨_, rfl, rfl, rfl, hr⟩
    | some err =>
      obtain ⟨r, h2, ho, hc, hr2⟩ := ih w1
      exact ⟨r, h2, ho, hc, hr2.trans hr⟩

theorem configureSudo_total {σ : Type} (E : Env σ) (c : Connection) (w : World σ)
    (o : OSVersion) (ho : c.OSVersion = some o) :
    ∃ r, configureSudo E c w = Res.ok r ∧ r.1.OSVersion = some o ∧
      r.1.client = c.client ∧ resolverCalls r.2 = resolverCalls w := by
  unfold configureSudo
  rw [ho]
  dsimp only
  by_cases hw : o.ID = "windows"
  · rw [if_pos hw]
    obtain ⟨⟨e, out, w1⟩, hx, hr⟩ := Exec_total E c sudoCheckWindows [] w
    rw [hx]
    cases e with
    | none => exact ⟨_, rfl, rfl, rfl, hr⟩
    | some err => exact ⟨_, rfl, ho, rfl, hr⟩
  · rw [if_neg hw]
    obtain ⟨r, h1, h2, h3, h4⟩ := sudoLoop_total E c (rangeSudoChecks E) w
    exact ⟨r, h1, h2.trans ho, h3, h4⟩

theorem SetDefaults_spec {σ : Type} (E : Env σ) (c : Connection) (w : World σ) :
    ((SetDefaults E c w).1.client).isSome = true ∧
    (SetDefaults E c w).1.OSVersion = c.OSVersion ∧
    (SetDefaults E c w).1.sudofunc = c.sudofunc ∧
    (SetDefaults E c w).2.calls = w.calls := by
  unfold SetDefaults
  cases hcl : c.client with
  | some cl => exact ⟨by simp [hcl], rfl, rfl, rfl⟩
  | none =>
    dsimp only
    cases hcc : configuredClient c with
    | none => exact ⟨rfl, rfl, rfl, rfl⟩
    | some cl => cases cl <;> exact ⟨rfl, rfl, rfl, rfl⟩

theorem connectDefaults_spec {σ : Type} (E : Env σ) (c : Connection) (w : World σ) :
    (connectDefaults E c w).2.1.OSVersion = c.OSVersion ∧
    (connectDefaults E c w).2.1.sudofunc = c.sudofunc ∧
    resolverCalls (connectDefaults E c w).2.2 = resolverCalls w ∧
    ((connectDefaults E c w).1 = none →
      ((connectDefaults E c w).2.1.client).isSome = true) := by
  unfold connectDefaults
  cases hcl : c.client with
  | some cl => exact ⟨rfl, rfl, rfl, fun _ => by simp [hcl]⟩
  | none =>
    dsimp only
    unfold defaultsSet
    dsimp only
    cases hf : E.defaultsFields c ((w.log Call.defaultsSet).localhost,
        (w.log Call.defaultsSet).ext) with
    | mk e m =>
      obtain ⟨h, s⟩ := m
      cases e with
      | some err =>
        refine ⟨rfl, rfl, ?_, fun h => by simp at h⟩
        exact resolverCalls_log w Call.defaultsSet (by simp)
      | none =>
        have hs := SetDefaults_spec E c
          { w.log Call.defaultsSet with localhost := h, ext := s }
        refine ⟨hs.2.1, hs.2.2.1, ?_, fun _ => hs.1⟩
        have h1 : resolverCalls (SetDefaults E c
            { w.log Call.defaultsSet with localhost := h, ext := s }).2
            = resolverCalls (w.log Call.defaultsSet) := by
          unfold resolverCalls
          rw [hs.2.2.2]
        exact h1.trans (resolverCalls_log w Call.defaultsSet (by simp))


theorem SetDefaults_selected {σ : Type} (E : Env σ) (c : Connection) (v : World σ)
    (h : c.client = none) : (SetDefaults E c v).1.client = some (selected c v.next) := by
  unfold SetDefaults selected
  rw [h]
  cases configuredClient c with
  | none => rfl
  | some d => rfl

theorem connectDefaults_client_only {σ : Type} (E : Env σ) (c : Connection) (w : World σ) :
    ∃ k, (connectDefaults E c w).2.1 = { c with client := k } := by
  unfold connectDefaults
  cases hcl : c.client with
  | some cl => exact ⟨some cl, by cases c; simp_all⟩
  | none =>
    dsimp only
    unfold defaultsSet
    dsimp only
    cases hf : E.defaultsFields c ((w.log Call.defaultsSet).localhost,
        (w.log Call.defaultsSet).ext) with
    | mk e m =>
      obtain ⟨h, s⟩ := m
      cases e with
      | some err => exact ⟨none, by cases c; simp_all⟩
      | none =>
        dsimp only
        unfold SetDefaults
        rw [hcl]
        dsimp only
        cases configuredClient c with
        | none => exact ⟨_, rfl⟩
        | some d => exact ⟨_, rfl⟩

theorem connectDefaults_selected {σ : Type} (E : Env σ) (c c3 : Connection)
    (w w3 : World σ) (hn : c.client = none)
    (h : connectDefaults E c w = (none, c3, w3)) :
    c3.client = some (selected c w.next) := by
  unfold connectDefaults at h
  rw [hn] at h
  dsimp only at h
  unfold defaultsSet at h
  dsimp only at h
  cases hf : E.defaultsFields c ((w.log Call.defaultsSet).localhost,
      (w.log Call.defaultsSet).ext) with
  | mk e m =>
    obtain ⟨hp, s⟩ := m
    rw [hf] at h
    cases e with
    | some err => simp at h
    | none =>
      dsimp only at h
      have h1 := SetDefaults_selected E c
        { w.log Call.defaultsSet with localhost := hp, ext := s } hn
      have h2 := congrArg (fun r => r.2.1) h
      dsimp only at h2
      rw [← h2]
      exact h1

/-- C3, as the code has it: when the defaulting step of `Connect` succeeds and the
transport's connect operation returns an error `e`, `Connect` returns `ErrNotConnected`
wrapping `e` (both are found by `errors.Is`); afterwards the transport reference is nil and
`IsConnected` is false, the OS identity, the elevation strategy and the descriptors are the
ones before, and the OS resolver was not called.  A second `Connect` starts with
`defaults.Set` and, when that does not fail, calls the transport instance selected from the
descriptors: the failed instance itself when it is the configured descriptor, and a new
`Localhost` only when no descriptor is configured. -/
theorem C3_failed_connect {σ : Type} (E : Env σ) (c c1 : Connection) (w w1 : World σ)
    (cl : client) (e : error) (s : σ)
    (hd : connectDefaults E c w = (none, c1, w1)) (hc : c1.client = some cl)
    (he : E.T.Connect cl w1.ext = (some e, s)) :
    ∃ c2 w2,
      Connect E c w
        = Res.ok (some (error.Wrapf error.ErrNotConnected "client connect: %w" e), c2, w2) ∧
      error.Is (error.Wrapf error.ErrNotConnected "client connect: %w" e)
        error.ErrNotConnected = true ∧
      error.Is (error.Wrapf error.ErrNotConnected "client connect: %w" e) e = true ∧
      c2.client = none ∧
      IsConnected E c2 w2 = false ∧
      c2.OSVersion = c.OSVersion ∧
      c2.sudofunc = c.sudofunc ∧
      configuredClient c2 = configuredClient c ∧
      resolverCalls w2 = resolverCalls w ∧
      connectDefaults E c2 w2 = defaultsSet E c2 w2 ∧
      (∀ c3 w3, connectDefaults E c2 w2 = (none, c3, w3) →
        c3.client = some (selected c w2.next)) ∧
      (configuredClient c = some cl →
        ∀ c3 w3, connectDefaults E c2 w2 = (none, c3, w3) → c3.client = some cl) := by
  have hs := connectDefaults_spec E c w
  obtain ⟨k, hk⟩ := connectDefaults_client_only E c w
  rw [hd] at hs hk
  dsimp only at hk
  have hcc : configuredClient ({ c1 with client := none } : Connection)
      = configuredClient c := by
    rw [hk]
    rfl
  have hsel : ∀ c3 w3,
      connectDefaults E ({ c1 with client := none } : Connection)
        (({ w1 with ext := s }).log (Call.Connect cl)) = (none, c3, w3) →
      c3.client = some (selected c (({ w1 with ext := s }).log (Call.Connect cl)).next) := by
    intro c3 w3 h3
    have h4 := connectDefaults_selected E _ c3 _ w3 rfl h3
    rw [h4]
    unfold selected
    rw [hcc]
  refine ⟨{ c1 with client := none }, ({ w1 with ext := s }).log (Call.Connect cl), ?_,
    ?_, ?_, rfl, rfl, hs.1, hs.2.1, hcc, ?_, rfl, hsel, ?_⟩
  · unfold Connect
    rw [hd]
    simp only [theClient, hc, he]
  · simp [error.Is]
  · simp [error.Is, error_Is_refl]
  · exact (resolverCalls_log _ _ (by simp)).trans hs.2.2.1
  · intro hcfg c3 w3 h3
    rw [hsel c3 w3 h3]
    unfold selected
    rw [hcfg]

/-- Witness of C3: an `SSH` descriptor over `flagTransport`, whose connect operation
fails. -/
theorem C3_failed_connect_witness :
    ∃ c2 w2,
      Connect flagEnv (mkConnection none none (some 0) none none none) (initWorld false)
        = Res.ok (some (error.Wrapf error.ErrNotConnected "client connect: %w"
            (error.foreign "dial tcp: connection refused")), c2, w2) ∧
      error.Is (error.Wrapf error.ErrNotConnected "client connect: %w"
          (error.foreign "dial tcp: connection refused")) error.ErrNotConnected = true ∧
      error.Is (error.Wrapf error.ErrNotConnected "client connect: %w"
          (error.foreign "dial tcp: connection refused"))
        (error.foreign "dial tcp: connection refused") = true ∧
      c2.client = none ∧
      IsConnected flagEnv c2 w2 = false ∧
      c2.OSVersion = (mkConnection none none (some 0) none none none).OSVersion ∧
      c2.sudofunc = (mkConnection none none (some 0) none none none).sudofunc ∧
      configuredClient c2 = configuredClient (mkConnection none none (some 0) none none none) ∧
      resolverCalls w2 = resolverCalls (initWorld false) ∧
      connectDefaults flagEnv c2 w2 = defaultsSet flagEnv c2 w2 ∧
      (∀ c3 w3, connectDefaults flagEnv c2 w2 = (none, c3, w3) →
        c3.client = some (selected (mkConnection none none (some 0) none none none) w2.next)) ∧
      (configuredClient (mkConnection none none (some 0) none none none)
          = some (client.SSH 0) →
        ∀ c3 w3, connectDefaults flagEnv c2 w2 = (none, c3, w3) →
          c3.client = some (client.SSH 0)) :=
  C3_failed_connect flagEnv (mkConnection none none (some 0) none none none) _
    (initWorld false) _ (client.SSH 0) (error.foreign "dial tcp: connection refused") false
    rfl rfl rfl

/-- C3 fails as stated: with an `SSH` descriptor the first `Connect` fails on the instance
`client.SSH 0` and leaves the reference nil; the defaulting step of the second `Connect`
installs `client.SSH 0` again, and the second `Connect` calls the connect operation of that
same instance. -/
theorem C3_counterexample :
    ∃ c2 w2 c3 w3 c4 w4,
      Connect flagEnv (mkConnection none none (some 0) none none none) (initWorld false)
        = Res.ok (some (error.Wrapf error.ErrNotConnected "client connect: %w"
            (error.foreign "dial tcp: connection refused")), c2, w2) ∧
      w2.calls = [Call.defaultsSet, Call.Connect (client.SSH 0)] ∧
      c2.client = none ∧
      connectDefaults flagEnv c2 w2 = (none, c3, w3) ∧
      c3.client = some (client.SSH 0) ∧
      Connect flagEnv c2 w2
        = Res.ok (some (error.Wrapf error.ErrNotConnected "client connect: %w"
            (error.foreign "dial tcp: connection refused")), c4, w4) ∧
      w4.calls = [Call.defaultsSet, Call.Connect (client.SSH 0), Call.defaultsSet,
        Call.Connect (client.SSH 0)] :=
  ⟨_, _, _, _, _, _, rfl, rfl, rfl, rfl, rfl, rfl, rfl⟩

/-- C4: on a `Connection` whose `OSVersion` is set, started either as it is or after a
`Disconnect`, a `Connect` whose defaulting step and transport connect succeed returns no
error, leaves `OSVersion` at its previous value and records no call of the OS resolver;
`Disconnect` itself leaves `OSVersion` as it is and calls no resolver. -/
theorem C4_os_resolved_once {σ : Type} (E : Env σ) (c c1 : Connection) (w w1 : World σ)
    (viaDisconnect : Bool) (o : OSVersion) (cl : client) (s : σ)
    (ho : c.OSVersion = some o)
    (hd : connectDefaults E (if viaDisconnect then Disconnect E c w else (c, w)).1
        (if viaDisconnect then Disconnect E c w else (c, w)).2 = (none, c1, w1))
    (hc : c1.client = some cl)
    (he : E.T.Connect cl w1.ext = (none, s)) :
    (Disconnect E c w).1.OSVersion = some o ∧
    resolverCalls (Disconnect E c w).2 = resolverCalls w ∧
    ∃ c3 w3,
      Connect E (if viaDisconnect then Disconnect E c w else (c, w)).1
        (if viaDisconnect then Disconnect E c w else (c, w)).2 = Res.ok (none, c3, w3) ∧
      c3.OSVersion = some o ∧
      resolverCalls w3 = resolverCalls w := by
  have hdis : (Disconnect E c w).1.OSVersion = some o ∧
      resolverCalls (Disconnect E c w).2 = resolverCalls w := by
    unfold Disconnect
    cases hcl : c.client with
    | none => exact ⟨ho, rfl⟩
    | some k => exact ⟨ho, resolverCalls_log _ _ (by simp)⟩
  refine ⟨hdis.1, hdis.2, ?_⟩
  have hstart : (if viaDisconnect then Disconnect E c w else (c, w)).1.OSVersion = some o ∧
      resolverCalls (if viaDisconnect then Disconnect E c w else (c, w)).2
        = resolverCalls w := by
    cases viaDisconnect
    · exact ⟨ho, rfl⟩
    · exact hdis
  have hs := connectDefaults_spec E (if viaDisconnect then Disconnect E c w else (c, w)).1
    (if viaDisconnect then Disconnect E c w else (c, w)).2
  rw [hd] at hs
  have ho1 : c1.OSVersion = some o := hs.1.trans hstart.1
  obtain ⟨⟨c3, w3⟩, h3, h3o, _, h3r⟩ :=
    configureSudo_total E c1 (({ w1 with ext := s }).log (Call.Connect cl)) o ho1
  refine ⟨c3, w3, ?_, h3o, ?_⟩
  · unfold Connect
    rw [hd]
    simp only [theClient, hc, he, ho1, h3]
  · exact h3r.trans ((resolverCalls_log _ _ (by simp)).trans (hs.2.2.1.trans hstart.2))


/-- Witness of C4: a connected `Localhost` connection with a cached identity, disconnected
and connected again over `flagTransport`. -/
theorem C4_os_resolved_once_witness :
    (mkConnection none (some 0) none (some alpineOS) (some (client.Localhost 0)) none).OSVersion
      = some alpineOS ∧
    ((Disconnect flagEnv
        (mkConnection none (some 0) none (some alpineOS) (some (client.Localhost 0)) none)
        (initWorld true)).1.OSVersion = some alpineOS ∧
    resolverCalls (Disconnect flagEnv
        (mkConnection none (some 0) none (some alpineOS) (some (client.Localhost 0)) none)
        (initWorld true)).2 = resolverCalls (initWorld true) ∧
    ∃ c3 w3,
      Connect flagEnv
        (if true then Disconnect flagEnv
            (mkConnection none (some 0) none (some alpineOS) (some (client.Localhost 0)) none)
            (initWorld true)
          else (mkConnection none (some 0) none (some alpineOS) (some (client.Localhost 0))
            none, initWorld true)).1
        (if true then Disconnect flagEnv
            (mkConnection none (some 0) none (some alpineOS) (some (client.Localhost 0)) none)
            (initWorld true)
          else (mkConnection none (some 0) none (some alpineOS) (some (client.Localhost 0))
            none, initWorld true)).2 = Res.ok (none, c3, w3) ∧
      c3.OSVersion = some alpineOS ∧
      resolverCalls w3 = resolverCalls (initWorld true)) :=
  ⟨rfl, C4_os_resolved_once flagEnv
    (mkConnection none (some 0) none (some alpineOS) (some (client.Localhost 0)) none) _
    (initWorld true) _ true alpineOS (client.Localhost 0) true rfl rfl rfl rfl⟩

/-! ## Disconnect and Sudo -/

/-- C5: `Disconnect` is a total function without error result; after it the transport
reference is nil and `IsConnected` is false; a second `Disconnect` gives back the same
`Connection` and the same world, so it makes no call on any transport. -/
theorem C5_disconnect_idempotent {σ : Type} (E : Env σ) (c : Connection) (w : World σ) :
    (Disconnect E c w).1.client = none ∧
    IsConnected E (Disconnect E c w).1 (Disconnect E c w).2 = false ∧
    Disconnect E (Disconnect E c w).1 (Disconnect E c w).2 = Disconnect E c w ∧
    (Disconnect E (Disconnect E c w).1 (Disconnect E c w).2).2.calls
      = (Disconnect E c w).2.calls := by
  cases hc : c.client <;> simp [Disconnect, IsConnected, hc]

/-- C6, as the code has it: `Disconnect` leaves the elevation strategy as it is, so `Sudo`
gives after `Disconnect` what it gave before, for every command. -/
theorem C6_disconnect_keeps_sudofunc {σ : Type} (E : Env σ) (c : Connection) (w : World σ)
    (cmd : String) :
    (Disconnect E c w).1.sudofunc = c.sudofunc ∧
    Sudo (Disconnect E c w).1 cmd = Sudo c cmd := by
  cases hc : c.client <;> simp [Disconnect, Sudo, hc]

/-- C6 fails as stated: a `Connect` over `flagTransport` resolves the doas strategy, and
after `Disconnect` the strategy is still set and `Sudo` succeeds. -/
theorem C6_counterexample :
    ∃ c1 w1,
      Connect flagEnv (mkConnection none (some 0) none none none none) (initWorld false)
        = Res.ok (none, c1, w1) ∧
      ((Disconnect flagEnv c1 w1).1.sudofunc).isSome = true ∧
      Sudo (Disconnect flagEnv c1 w1).1 "ls" = ("doas -s -- ls", none) :=
  ⟨_, _, rfl, rfl, rfl⟩

/-- C7: `Sudo` returns the empty text and an `ErrSudoRequired` error exactly when the
elevation strategy is unset, and the strategy applied to the command with no error when it
is set; `Sudo` reads the strategy only, so whether the `Connection` is connected plays no
part. -/
theorem C7_sudo (c : Connection) (cmd : String) (W L S : Option Ptr)
    (o : Option OSVersion) (cl : Option client) (g : sudofn) :
    Sudo (mkConnection W L S o cl none) cmd = ("", some sudoRequired) ∧
    Sudo (mkConnection W L S o cl (some g)) cmd = (g cmd, none) ∧
    (Sudo c cmd = ("", some sudoRequired) ↔ c.sudofunc = none) ∧
    error.Is sudoRequired error.ErrSudoRequired = true ∧
    Sudo emptyConnection cmd = ("", some sudoRequired) := by
  refine ⟨rfl, rfl, ?_, rfl, rfl⟩
  cases hf : c.sudofunc <;> simp [Sudo, hf]

/-! ## Parsing os-release -/

theorem cutAt_of_mem (cs : List Char) (h : chEq ∈ cs) :
    cutAt chEq cs
      = some (cs.takeWhile (fun c => c != chEq), (cs.dropWhile fun c => c != chEq).drop 1) := by
  induction cs with
  | nil => simp at h
  | cons c cs ih =>
    by_cases hc : c = chEq
    · simp [cutAt, hc, List.takeWhile, List.dropWhile]
    · have h1 : chEq ∈ cs := by
        rcases List.mem_cons.mp h with h | h
        · exact absurd h.symm hc
        · exact h
      have hb : (c != chEq) = true := by simpa using hc
      simp [cutAt, hc, List.takeWhile, List.dropWhile, ih h1, hb]

theorem SplitN_of_mem (l : String) (h : chEq ∈ l.data) :
    SplitN l chEq 2 = [lineKey l, lineValue l] := by
  simp [SplitN, splitNChars, cutAt_of_mem l.data h, lineKey, lineValue]

theorem parseLine_of_mem (esc : String → Option String) (l : String) (os : OSVersion)
    (h : chEq ∈ l.data) :
    parseLine esc l os = Res.ok
      { ID := if lineKey l = "ID" then unquote esc (lineValue l) else os.ID
        IDLike := if lineKey l = "ID_LIKE" then unquote esc (lineValue l) else os.IDLike
        Version := if lineKey l = "VERSION_ID" then unquote esc (lineValue l) else os.Version
        Name := if lineKey l = "PRETTY_NAME" then unquote esc (lineValue l) else os.Name } := by
  unfold parseLine
  rw [SplitN_of_mem l h]
  simp only [index, List.get?]
  by_cases h1 : lineKey l = "ID"
  · simp [h1]
  · by_cases h2 : lineKey l = "ID_LIKE"
    · simp [h2]
    · by_cases h3 : lineKey l = "VERSION_ID"
      · simp [h3]
      · by_cases h4 : lineKey l = "PRETTY_NAME"
        · simp [h4]
        · simp [h1, h2, h3, h4]

theorem specField_cons (key : String) (l : String) (ls : List String) (prior : String) :
    specField key (l :: ls) prior
      = specField key ls (if lineKey l = key then specUnquote (lineValue l) else prior) := by
  unfold specField
  simp only [lastValue]
  cases lastValue key ls with
  | some v => rfl
  | none =>
    by_cases hk : lineKey l = key
    · simp [hk]
    · simp [hk]

theorem indexOfChar_append (q : Char) (v rest : List Char) (h : q ∉ v) :
    indexOfChar q (v ++ q :: rest) = some v.length := by
  induction v with
  | nil => simp [indexOfChar]
  | cons c cs ih =>
    have hc : c ≠ q := fun hc => h (hc ▸ List.mem_cons_self _ _)
    have hcs : q ∉ cs := fun hm => h (List.mem_cons_of_mem _ hm)
    simp [indexOfChar, hc, ih hcs]

theorem indexOfChar_none (q : Char) (l : List Char) (h : indexOfChar q l = none) :
    q ∉ l := by
  induction l with
  | nil => simp
  | cons c cs ih =>
    unfold indexOfChar at h
    by_cases hc : c = q
    · simp [hc] at h
    · rw [if_neg hc] at h
      have h1 : indexOfChar q cs = none := by
        cases hx : indexOfChar q cs with
        | none => rfl
        | some j => simp [hx] at h
      intro hm
      rcases List.mem_cons.mp hm with h2 | h2
      · exact hc h2.symm
      · exact ih h1 h2

theorem indexOfChar_some (q : Char) (l : List Char) (i : Nat)
    (h : indexOfChar q l = some i) :
    l = l.take i ++ q :: l.drop (i + 1) ∧ q ∉ l.take i := by
  induction l generalizing i with
  | nil => simp [indexOfChar] at h
  | cons c cs ih =>
    unfold indexOfChar at h
    by_cases hc : c = q
    · rw [if_pos hc] at h
      have hi : i = 0 := by simpa using h.symm
      subst hi
      simp [hc]
    · rw [if_neg hc] at h
      cases hx : indexOfChar q cs with
      | none => simp [hx] at h
      | some j =>
        have hi : i = j + 1 := by simpa [hx] using h.symm
        subst hi
        obtain ⟨h1, h2⟩ := ih j hx
        refine ⟨?_, ?_⟩
        · simp only [List.take_succ_cons, List.drop_succ_cons, List.cons_append]
          rw [← h1]
        · simp only [List.take_succ_cons, List.mem_cons, not_or]
          exact ⟨fun hq => hc hq.symm, h2⟩

/-- The code of `strconv.Unquote` after the closing quote was found: `inner` is the text
before it and `rem` the text after it. -/
theorem strconvUnquote_split (esc : String → Option String) (q : Char)
    (inner rem : List Char) (hq : q ∉ inner) (hne : inner ++ q :: rem ≠ []) :
    strconvUnquote esc (String.mk (q :: (inner ++ q :: rem)))
      = (if q = chBQ then
          if rem.isEmpty then some (String.mk (inner.filter (fun c => c != chCR))) else none
        else if q = chDQ ∨ q = chSQ then
          if chLF ∈ inner then none
          else if chBS ∈ inner then esc (String.mk (q :: (inner ++ q :: rem)))
          else if q = chSQ ∧ 2 ≤ inner.length then none
          else if rem.isEmpty then some (String.mk inner) else none
        else none) := by
  have hi := indexOfChar_append q inner rem hq
  cases hx : inner ++ q :: rem with
  | nil => exact absurd hx hne
  | cons r rs =>
    rw [hx] at hi
    have ht : (r :: rs).take inner.length = inner := by
      rw [← hx]
      simp
    have hdr : (r :: rs).drop (inner.length + 1) = rem := by
      rw [← hx]
      simp
    simp only [strconvUnquote, hi, ht, hdr]

theorem specUnquote_closed (q : Char) (inner : List Char) (hq : q ∉ inner)
    (hquote : q = chDQ ∨ q = chSQ) :
    specUnquote (String.mk (q :: (inner ++ [q]))) = String.mk inner := by
  simp [specUnquote, hquote, hq]

theorem specUnquote_open (q : Char) (inner rem : List Char) (x : Char) :
    specUnquote (String.mk (q :: (inner ++ q :: x :: rem)))
      = String.mk (q :: (inner ++ q :: x :: rem)) := by
  have hd : (inner ++ q :: x :: rem).dropLast = inner ++ q :: (x :: rem).dropLast := by
    rw [List.dropLast_append_of_ne_nil _ (by simp)]
    rfl
  have hm : q ∈ (inner ++ q :: x :: rem).dropLast := by
    rw [hd]
    simp
  simp [specUnquote, hm]

/-- On a value without line feed that is `plainlyQuoted`, the unquoting of the code and the
shell-style unquoting of the specification agree. -/
theorem unquote_eq_specUnquote (esc : String → Option String) (v : String)
    (hlf : chLF ∉ v.data) (hp : plainlyQuoted v) : unquote esc v = specUnquote v := by
  obtain ⟨d⟩ := v
  obtain ⟨hbs, hbq, hsq⟩ := hp
  simp only at hlf hbs hbq hsq
  cases d with
  | nil => simp [unquote, strconvUnquote, specUnquote]
  | cons q rest =>
    cases hr : rest with
    | nil => simp [unquote, strconvUnquote, specUnquote]
    | cons r rs =>
      rw [← hr]
      have hqb : q ≠ chBQ := by
        intro h
        exact hbq (by simp [h])
      cases hi : indexOfChar q rest with
      | none =>
        have hnot := indexOfChar_none q rest hi
        have h1 : strconvUnquote esc (String.mk (q :: rest)) = none := by
          subst hr
          simp only [strconvUnquote, hi]
        have h2 : specUnquote (String.mk (q :: rest)) = String.mk (q :: rest) := by
          have : rest.getLast? ≠ some q := fun hl => hnot (List.mem_of_getLast?_eq_some hl)
          simp [specUnquote, this]
        simp only [unquote, h1, h2]
      | some i =>
        obtain ⟨hsplit, hni⟩ := indexOfChar_some q rest i hi
        generalize rest.take i = inner at hsplit hni
        generalize rest.drop (i + 1) = rem at hsplit
        subst hsplit
        have hcode := strconvUnquote_split esc q inner rem hni (by simp)
        have hlfi : chLF ∉ inner := fun h => hlf (by simp [h])
        have hbsi : chBS ∉ inner := fun h => hbs (by simp [h])
        by_cases hquote : q = chDQ ∨ q = chSQ
        · cases rem with
          | nil =>
            by_cases h2 : q = chSQ ∧ 2 ≤ inner.length
            · exfalso
              apply hsq
              obtain ⟨h2a, h2b⟩ := h2
              subst h2a
              refine ⟨rfl, ?_, ?_⟩
              · show (chSQ :: (inner ++ [chSQ])).getLast? = some chSQ
                rw [← List.cons_append, List.getLast?_concat]
              · have hlen : (chSQ :: (inner ++ [chSQ])).length = inner.length + 2 := by simp
                show 4 ≤ (chSQ :: (inner ++ [chSQ])).length
                omega
            · have hc : strconvUnquote esc (String.mk (q :: (inner ++ [q])))
                  = some (String.mk inner) := by
                rw [hcode]
                simp [hqb, hquote, hlfi, hbsi, h2]
              simp only [unquote, hc, specUnquote_closed q inner hni hquote]
          | cons x xs =>
            have hc : strconvUnquote esc (String.mk (q :: (inner ++ q :: x :: xs)))
                = none := by
              rw [hcode]
              simp [hqb, hquote, hlfi, hbsi]
            simp only [unquote, hc, specUnquote_open]
        · have hc : strconvUnquote esc (String.mk (q :: (inner ++ q :: rem))) = none := by
            rw [hcode]
            simp [hqb, hquote]
          have h2 : specUnquote (String.mk (q :: (inner ++ q :: rem)))
              = String.mk (q :: (inner ++ q :: rem)) := by
            simp [specUnquote, hquote]
          simp only [unquote, hc, h2]

theorem dropCR_subset (l : List Char) : ∀ c ∈ dropCR l, c ∈ l := by
  intro c hc
  unfold dropCR at hc
  by_cases h : l.getLast? = some chCR
  · rw [if_pos h] at hc
    exact List.mem_of_mem_dropLast hc
  · rw [if_neg h] at hc
    exact hc

theorem textFrom_noLF (cs acc : List Char) (h : chLF ∉ acc) :
    ∀ l ∈ textFrom cs acc, chLF ∉ l := by
  induction cs generalizing acc with
  | nil =>
    intro l hl hm
    unfold textFrom at hl
    by_cases he : acc.isEmpty = true
    · simp [he] at hl
    · simp only [he, Bool.false_eq_true, if_false, List.mem_singleton] at hl
      subst hl
      exact h (List.mem_reverse.mp (dropCR_subset _ _ hm))
  | cons c cs ih =>
    intro l hl hm
    unfold textFrom at hl
    by_cases hc : c = chLF
    · rw [if_pos hc] at hl
      rcases List.mem_cons.mp hl with h1 | h1
      · subst h1
        exact h (List.mem_reverse.mp (dropCR_subset _ _ hm))
      · exact ih [] (by simp) l h1 hm
    · rw [if_neg hc] at hl
      refine ih (c :: acc) ?_ l hl hm
      intro hx
      rcases List.mem_cons.mp hx with h1 | h1
      · exact hc h1.symm
      · exact h h1

theorem lineValue_noLF (l : String) (h : chLF ∉ l.data) : chLF ∉ (lineValue l).data := by
  intro hm
  unfold lineValue at hm
  simp only at hm
  exact h ((List.dropWhile_sublist _).subset (List.mem_of_mem_drop hm))

theorem parseLines_eq_spec (esc : String → Option String) (ls : List String)
    (os : OSVersion)
    (h : ∀ l ∈ ls, chEq ∈ l.data ∧ chLF ∉ l.data ∧
      (recognisedKey (lineKey l) → plainlyQuoted (lineValue l))) :
    parseLines esc ls os = Res.ok (specParse ls os) := by
  induction ls generalizing os with
  | nil => rfl
  | cons l ls ih =>
    obtain ⟨hl, hlf, hpq⟩ := h l (List.mem_cons_self _ _)
    have hls : ∀ x ∈ ls, chEq ∈ x.data ∧ chLF ∉ x.data ∧
        (recognisedKey (lineKey x) → plainlyQuoted (lineValue x)) :=
      fun x hx => h x (List.mem_cons_of_mem _ hx)
    have hu : recognisedKey (lineKey l) →
        unquote esc (lineValue l) = specUnquote (lineValue l) :=
      fun hk => unquote_eq_specUnquote esc _ (lineValue_noLF l hlf) (hpq hk)
    unfold parseLines
    rw [parseLine_of_mem esc l os hl]
    simp only
    rw [ih _ hls]
    simp only [specParse, specField_cons]
    congr 2
    · by_cases hk : lineKey l = "ID"
      · simp [hk, ← hu (Or.inl hk)]
      · simp [hk]
    · by_cases hk : lineKey l = "ID_LIKE"
      · simp [hk, ← hu (Or.inr (Or.inl hk))]
      · simp [hk]
    · by_cases hk : lineKey l = "VERSION_ID"
      · simp [hk, ← hu (Or.inr (Or.inr (Or.inl hk)))]
      · simp [hk]
    · by_cases hk : lineKey l = "PRETTY_NAME"
      · simp [hk, ← hu (Or.inr (Or.inr (Or.inr hk)))]
      · simp [hk]

theorem textLines_noLF (s : String) : ∀ l ∈ textLines s, chLF ∉ l.data := by
  intro l hl
  unfold textLines at hl
  rw [List.mem_map] at hl
  obtain ⟨d, hd, rfl⟩ := hl
  exact textFrom_noLF s.data [] (by simp) d hd

theorem byteLen_append (a b : List Char) : byteLen (a ++ b) = byteLen a + byteLen b := by
  simp [byteLen]

theorem byteLen_reverse (a : List Char) : byteLen a.reverse = byteLen a := by
  induction a with
  | nil => rfl
  | cons c cs ih =>
    rw [List.reverse_cons, byteLen_append, ih]
    simp [byteLen, Nat.add_comm]

theorem length_le_byteLen (a : List Char) : a.length ≤ byteLen a := by
  induction a with
  | nil => simp [byteLen]
  | cons c cs ih =>
    have := c.utf8Size_pos
    simp only [byteLen, List.map_cons, List.sum_cons, List.length_cons] at ih ⊢
    omega

theorem byteLen_dropCR (a : List Char) : byteLen a ≤ byteLen (dropCR a) + 1 := by
  unfold dropCR
  by_cases h : a.getLast? = some chCR
  · rw [if_pos h]
    have h1 : a.dropLast ++ [chCR] = a := List.dropLast_append_getLast? chCR (by simp [h])
    have h2 : byteLen a = byteLen a.dropLast + byteLen [chCR] := by
      rw [← byteLen_append, h1]
    have h3 : byteLen [chCR] = 1 := by decide
    omega
  · rw [if_neg h]
    omega

theorem scanFrom_eq_textFrom (cs acc : List Char)
    (h : ∀ l ∈ textFrom cs acc, byteLen l + 1 < MaxScanTokenSize) :
    scanFrom cs acc = textFrom cs acc := by
  induction cs generalizing acc with
  | nil =>
    unfold scanFrom textFrom
    by_cases he : acc.isEmpty = true
    · simp [he]
    · have hm : dropCR acc.reverse ∈ textFrom [] acc := by simp [textFrom, he]
      have h1 := h _ hm
      have h2 := byteLen_dropCR acc.reverse
      rw [byteLen_reverse] at h2
      have h3 : ¬ MaxScanTokenSize ≤ byteLen acc := by omega
      simp [he, h3]
  | cons c cs ih =>
    unfold scanFrom textFrom
    by_cases hc : c = chLF
    · have hm : dropCR acc.reverse ∈ textFrom (c :: cs) acc := by simp [textFrom, hc]
      have h1 := h _ hm
      have h2 := byteLen_dropCR acc.reverse
      rw [byteLen_reverse] at h2
      have h3 : ¬ MaxScanTokenSize ≤ byteLen acc := by omega
      have h4 : ∀ l ∈ textFrom cs [], byteLen l + 1 < MaxScanTokenSize := by
        intro l hl
        exact h l (by simp [textFrom, hc, hl])
      simp [hc, h3, ih [] h4]
    · have h4 : ∀ l ∈ textFrom cs (c :: acc), byteLen l + 1 < MaxScanTokenSize := by
        intro l hl
        exact h l (by simp [textFrom, hc, hl])
      simp [hc, ih (c :: acc) h4]

theorem scanLines_eq_textLines (s : String)
    (h : ∀ l ∈ textLines s, byteLen l.data + 1 < MaxScanTokenSize) :
    scanLines s = textLines s := by
  unfold scanLines textLines
  rw [scanFrom_eq_textFrom]
  intro l hl
  exact h (String.mk l) (List.mem_map_of_mem _ hl)

/-- C8, with lines that fit the scanner's buffer and values on which Go and shell quoting
agree: if every line of the text contains an equals sign and is shorter than 65535 bytes,
and the value of every line with one of the four keys is `plainlyQuoted`,
`parseOSReleaseFile` returns no error and each of the four fields is the shell-unquoted
text after the first equals sign of the last line whose key is `ID`, `ID_LIKE`,
`VERSION_ID`, `PRETTY_NAME` respectively, or its prior value when no line has that key;
lines with another key change nothing. -/
theorem C8_parse_os_release (esc : String → Option String) (s : String) (os : OSVersion)
    (h : ∀ l ∈ textLines s, chEq ∈ l.data ∧ byteLen l.data + 1 < MaxScanTokenSize ∧
      (recognisedKey (lineKey l) → plainlyQuoted (lineValue l))) :
    parseOSReleaseFile esc s os = Res.ok (none, specParse (textLines s) os) := by
  unfold parseOSReleaseFile
  rw [scanLines_eq_textLines s (fun l hl => (h l hl).2.1),
    parseLines_eq_spec esc (textLines s) os
      (fun l hl => ⟨(h l hl).1, textLines_noLF s l hl, (h l hl).2.2⟩)]

/-- Witness of C8: the text of the specification. -/
theorem C8_parse_os_release_witness :
    (∀ l ∈ textLines ubuntuText,
      chEq ∈ l.data ∧ byteLen l.data + 1 < MaxScanTokenSize ∧
      (recognisedKey (lineKey l) → plainlyQuoted (lineValue l))) ∧
    parseOSReleaseFile noEsc ubuntuText emptyOS
      = Res.ok (none, specParse (textLines ubuntuText) emptyOS) ∧
    specParse (textLines ubuntuText) emptyOS
      = { ID := "ubuntu", IDLike := "debian", Version := "22.04",
          Name := "Ubuntu 22.04.3 LTS" } :=
  ⟨by decide, C8_parse_os_release noEsc ubuntuText emptyOS (by decide), by rfl⟩

theorem textFrom_append (l cs acc : List Char) (h : ∀ c ∈ l, c ≠ chLF) :
    textFrom (l ++ cs) acc = textFrom cs (l.reverse ++ acc) := by
  induction l generalizing acc with
  | nil => rfl
  | cons c l ih =>
    have hc : c ≠ chLF := h c (List.mem_cons_self _ _)
    have hl : ∀ x ∈ l, x ≠ chLF := fun x hx => h x (List.mem_cons_of_mem _ hx)
    simp [textFrom, hc, ih (c :: acc) hl]

theorem scanFrom_append (l cs acc : List Char) (h : ∀ c ∈ l, c ≠ chLF) :
    scanFrom (l ++ cs) acc = scanFrom cs (l.reverse ++ acc) := by
  induction l generalizing acc with
  | nil => rfl
  | cons c l ih =>
    have hc : c ≠ chLF := h c (List.mem_cons_self _ _)
    have hl : ∀ x ∈ l, x ≠ chLF := fun x hx => h x (List.mem_cons_of_mem _ hx)
    simp [scanFrom, hc, ih (c :: acc) hl]

theorem longLineOf_noLF (n : Nat) : ∀ c ∈ longLineOf n, c ≠ chLF := by
  intro c hc
  simp only [longLineOf, List.mem_append, List.mem_replicate, List.mem_cons,
    List.mem_singleton, List.not_mem_nil, or_false] at hc
  rcases hc with ⟨_, rfl⟩ | rfl | rfl <;> decide

theorem longLineOf_long (n : Nat) : n ≤ byteLen (longLineOf n) := by
  have h := length_le_byteLen (longLineOf n)
  have h2 : (longLineOf n).length = n + 2 := by simp [longLineOf]
  omega

theorem dropCR_longLineOf (n : Nat) : dropCR (longLineOf n) = longLineOf n := by
  have h : (longLineOf n).getLast? = some 'b' := by
    simp [longLineOf, List.getLast?_append]
  unfold dropCR
  rw [h, if_neg (by decide)]

theorem longLineOf_hasEq (n : Nat) : chEq ∈ longLineOf n := by
  simp [longLineOf]

theorem longLine_noLF : ∀ c ∈ longLine, c ≠ chLF := longLineOf_noLF _

theorem longLine_long : MaxScanTokenSize ≤ byteLen longLine := longLineOf_long _

theorem dropCR_longLine : dropCR longLine = longLine := dropCR_longLineOf _

theorem scanLines_longText : scanLines longText = [] := by
  unfold scanLines longText
  simp only
  rw [scanFrom_append longLine _ [] longLine_noLF]
  have h : MaxScanTokenSize ≤ byteLen (longLine.reverse ++ []) := by
    rw [byteLen_append, byteLen_reverse]
    exact Nat.le_add_right_of_le longLine_long
  unfold scanFrom
  rw [if_pos rfl, if_pos h]
  rfl

theorem textLines_longText : textLines longText = [String.mk longLine, "ID=x"] := by
  unfold textLines longText
  simp only
  rw [textFrom_append longLine _ [] longLine_noLF]
  have h : textFrom "ID=x".data [] = ["ID=x".data] := by decide
  unfold textFrom
  rw [if_pos rfl, h, List.append_nil, List.reverse_reverse, dropCR_longLine]
  rfl


theorem parse_of_no_lines (esc : String → Option String) (s : String) (os : OSVersion)
    (h : scanLines s = []) : parseOSReleaseFile esc s os = Res.ok (none, os) := by
  unfold parseOSReleaseFile
  rw [h]
  rfl

/-- C8 fails as stated.  Every line of `longText` contains an equals sign and its last
line is `ID=x`, so the claim gives the field `ID` the value `x`; yet `parseOSReleaseFile`
leaves the record as it was, because the scanner gives up on the first line, which does not
fit its buffer.  The one line `ID='ubuntu'` contains an equals sign, so the claim gives `ID`
the unquoted value `ubuntu`; yet `parseOSReleaseFile` gives it the value with its quotes.
And on `backQuotedText`, whose value is no shell-quoted text, `parseOSReleaseFile` removes
the back quotes, where shell-style unquoting keeps the raw token. -/
theorem C8_counterexample :
    ((∀ l ∈ textLines longText, chEq ∈ l.data) ∧
      (specParse (textLines longText) emptyOS).ID = "x" ∧
      parseOSReleaseFile noEsc longText emptyOS = Res.ok (none, emptyOS)) ∧
    ((∀ l ∈ textLines "ID='ubuntu'", chEq ∈ l.data) ∧
      (specParse (textLines "ID='ubuntu'") emptyOS).ID = "ubuntu" ∧
      parseOSReleaseFile noEsc "ID='ubuntu'" emptyOS
        = Res.ok (none, { emptyOS with ID := "'ubuntu'" })) ∧
    ((∀ l ∈ textLines backQuotedText, chEq ∈ l.data) ∧
      (specParse (textLines backQuotedText) emptyOS).ID = String.mk [chBQ, 'x', chBQ] ∧
      parseOSReleaseFile noEsc backQuotedText emptyOS
        = Res.ok (none, { emptyOS with ID := "x" })) := by
  refine ⟨⟨?_, ?_, parse_of_no_lines _ _ _ scanLines_longText⟩, ⟨by decide, by decide, rfl⟩,
    by decide, by decide, rfl⟩
  · rw [textLines_longText]
    intro l hl
    simp only [List.mem_cons, List.mem_singleton, List.not_mem_nil, or_false] at hl
    rcases hl with rfl | rfl
    · exact longLineOf_hasEq _
    · decide
  · rw [textLines_longText]
    have h : lastValue "ID" ["ID=x"] = some "x" := by decide
    simp only [specParse, specField, lastValue, h]
    decide

theorem cutAt_of_not_mem (cs : List Char) (h : chEq ∉ cs) : cutAt chEq cs = none := by
  induction cs with
  | nil => rfl
  | cons c cs ih =>
    have hc : c ≠ chEq := fun hc => h (hc ▸ List.mem_cons_self _ _)
    have hcs : chEq ∉ cs := fun hm => h (List.mem_cons_of_mem _ hm)
    simp [cutAt, hc, ih hcs]

/-- A line without equals sign that is none of the four keys is skipped: the record stays as
it is. -/
theorem parseLine_skips (esc : String → Option String) (l : String) (os : OSVersion)
    (h : chEq ∉ l.data) (h1 : l ≠ "ID") (h2 : l ≠ "ID_LIKE") (h3 : l ≠ "VERSION_ID")
    (h4 : l ≠ "PRETTY_NAME") : parseLine esc l os = Res.ok os := by
  have hs : SplitN l chEq 2 = [l] := by
    simp [SplitN, splitNChars, cutAt_of_not_mem l.data h]
  unfold parseLine
  rw [hs]
  simp [index, h1, h2, h3, h4]

/-- C9: a line that is just one of the four keys, without equals sign, makes
`parseOSReleaseFile` panic on `fields[1]`, whatever the record and the unquoting are. -/
theorem C9_bare_key_panics (esc : String → Option String) (os : OSVersion) :
    parseOSReleaseFile esc "ID" os = Res.panic "index out of range" ∧
    parseOSReleaseFile esc "ID_LIKE" os = Res.panic "index out of range" ∧
    parseOSReleaseFile esc "VERSION_ID" os = Res.panic "index out of range" ∧
    parseOSReleaseFile esc "PRETTY_NAME" os = Res.panic "index out of range" ∧
    parseOSReleaseFile esc "NAME=x\nID\nID=y" os = Res.panic "index out of range" ∧
    parseOSReleaseFile esc "no equals sign\nID=y" os = Res.ok (none, { os with ID := "y" }) :=
  ⟨rfl, rfl, rfl, rfl, rfl, rfl⟩


/-! ## The sudo formatter -/

theorem sudoIdx_eq (ps : List String) (i : Nat) :
    sudoIdx ps i i = i + leadingAssignments ps := by
  induction ps generalizing i with
  | nil => rfl
  | cons p ps ih =>
    unfold sudoIdx
    by_cases hp : containsEq p = true
    · rw [if_pos hp, ih (i + 1)]
      simp [leadingAssignments, List.takeWhile, hp]
      omega
    · rw [if_neg hp]
      simp [leadingAssignments, List.takeWhile, hp]

/-- C10, as the code has it: for every tokenizer, quoting function and command, `sudoSudo`
gives the plain form `sudo -s -- cmd` when tokenization fails or the first word has no
equals sign (also when there is no word); else `sudo -s`, the leading words with an equals
sign, each quoted, ` -- `, and then the remaining words, each quoted as well, all joined by
single blanks.  With the utilities the program links, `echo hi` gives `sudo -s -- echo hi`
and `FOO=1 echo hi` gives `sudo -s FOO=1 -- echo hi`. -/
theorem C10_sudo_formatter (sh : Shell) (cmd : String) :
    sudoSudo sh cmd = sudoSudoQuoted sh cmd ∧
    sudoSudo goShell "echo hi" = "sudo -s -- echo hi" ∧
    sudoSudo goShell "FOO=1 echo hi" = "sudo -s FOO=1 -- echo hi" := by
  refine ⟨?_, by decide, by decide⟩
  unfold sudoSudo sudoSudoQuoted
  cases hs : sh.Split cmd with
  | mk parts err =>
    cases err with
    | some e => rfl
    | none =>
      have hk : sudoIdx parts 0 0 = leadingAssignments parts := by
        rw [sudoIdx_eq]; omega
      simp only [hk]
      cases parts with
      | nil => rfl
      | cons p ps =>
        by_cases hp : containsEq p = true
        · have hpos : leadingAssignments (p :: ps) ≠ 0 := by
            simp [leadingAssignments, List.takeWhile, hp]
          simp only [if_neg hpos, if_pos hp, List.map_take, List.map_drop]
        · have hz : leadingAssignments (p :: ps) = 0 := by
            simp [leadingAssignments, List.takeWhile, hp]
          simp only [hz, if_neg hp, if_true]

/-- C10 fails as stated: on a command whose remainder holds a quoted word the formatter
quotes that word again, where the reference definition of the claim joins the words as they
are. -/
theorem C10_counterexample :
    sudoSudo goShell "FOO=1 echo 'a b'" = "sudo -s FOO=1 -- echo 'a b'" ∧
    sudoSudoSpec goShell "FOO=1 echo 'a b'" = "sudo -s FOO=1 -- echo a b" ∧
    sudoSudo goShell "FOO=1 echo 'a b'" ≠ sudoSudoSpec goShell "FOO=1 echo 'a b'" := by
  decide

/-! ## The remainder of the command in the sudo formatter -/

theorem sudoSudo_eq_quoted (sh : Shell) (cmd : String) :
    sudoSudo sh cmd = sudoSudoQuoted sh cmd := by
  unfold sudoSudo sudoSudoQuoted
  cases hs : sh.Split cmd with
  | mk parts err =>
    cases err with
    | some e => rfl
    | none =>
      have hk : sudoIdx parts 0 0 = leadingAssignments parts := by
        rw [sudoIdx_eq]; omega
      simp only [hk]
      cases parts with
      | nil => rfl
      | cons p ps =>
        by_cases hp : containsEq p = true
        · have hpos : leadingAssignments (p :: ps) ≠ 0 := by
            simp [leadingAssignments, List.takeWhile, hp]
          simp only [if_neg hpos, if_pos hp, List.map_take, List.map_drop]
        · have hz : leadingAssignments (p :: ps) = 0 := by
            simp [leadingAssignments, List.takeWhile, hp]
          simp only [hz, if_neg hp, if_true]

/-- C11, as the code has it: when the command tokenizes and its first word has an equals
sign, the text after ` -- ` is built from the words alone: the words after the leading
assignments, each quoted, joined by single blanks.  So two commands with the same words
give the same text, whatever their own quoting and spacing. -/
theorem C11_remainder_requoted (sh : Shell) (cmd cmd2 : String) (p : String)
    (ps : List String) (hs : sh.Split cmd = (p :: ps, none)) (hp : containsEq p = true)
    (hs2 : sh.Split cmd2 = (p :: ps, none)) :
    sudoSudo sh cmd
      = "sudo -s "
        ++ " ".intercalate (((p :: ps).take (leadingAssignments (p :: ps))).map sh.Quote)
        ++ " -- "
        ++ " ".intercalate (((p :: ps).drop (leadingAssignments (p :: ps))).map sh.Quote) ∧
    sudoSudo sh cmd2 = sudoSudo sh cmd := by
  have h1 : ∀ c, sh.Split c = (p :: ps, none) → sudoSudo sh c
      = "sudo -s "
        ++ " ".intercalate (((p :: ps).take (leadingAssignments (p :: ps))).map sh.Quote)
        ++ " -- "
        ++ " ".intercalate (((p :: ps).drop (leadingAssignments (p :: ps))).map sh.Quote) := by
    intro c hc
    rw [sudoSudo_eq_quoted]
    unfold sudoSudoQuoted
    rw [hc]
    simp only [if_pos hp]
  exact ⟨h1 cmd hs, (h1 cmd2 hs2).trans (h1 cmd hs).symm⟩

/-- Witness of C11: `pipeCmd` and the same words written with single quotes and more
blanks. -/
theorem C11_remainder_requoted_witness :
    goShell.Split pipeCmd = ("FOO=1" :: ["echo", "a b", "|", "grep", "a"], none) ∧
    containsEq "FOO=1" = true ∧
    goShell.Split "FOO=1   echo 'a b'   '|' grep a"
      = ("FOO=1" :: ["echo", "a b", "|", "grep", "a"], none) ∧
    (sudoSudo goShell pipeCmd
      = "sudo -s "
        ++ " ".intercalate ((("FOO=1" :: ["echo", "a b", "|", "grep", "a"]).take
            (leadingAssignments ("FOO=1" :: ["echo", "a b", "|", "grep", "a"]))).map
              goShell.Quote)
        ++ " -- "
        ++ " ".intercalate ((("FOO=1" :: ["echo", "a b", "|", "grep", "a"]).drop
            (leadingAssignments ("FOO=1" :: ["echo", "a b", "|", "grep", "a"]))).map
              goShell.Quote) ∧
    sudoSudo goShell "FOO=1   echo 'a b'   '|' grep a" = sudoSudo goShell pipeCmd) :=
  ⟨by decide, by decide, by decide,
    C11_remainder_requoted goShell pipeCmd "FOO=1   echo 'a b'   '|' grep a" "FOO=1"
      ["echo", "a b", "|", "grep", "a"] (by decide) (by decide) (by decide)⟩

/-- C11 fails as stated: `pipeCmd` is its leading assignment followed by `pipeRest`, it
tokenizes, and the formatter gives a text that does not end with ` -- ` and `pipeRest`: the
double quotes have become single quotes and the pipe has become a quoted word. -/
theorem C11_counterexample :
    pipeCmd = "FOO=1 " ++ pipeRest ∧
    (goShell.Split pipeCmd).2 = none ∧
    sudoSudo goShell pipeCmd = "sudo -s FOO=1 -- echo 'a b' '|' grep a" ∧
    ¬ (" -- " ++ pipeRest).data <:+ (sudoSudo goShell pipeCmd).data := by
  decide

/-! ## Resolver selection -/

/-- C12, as the code has it: `GetResolver` first asks for the platform.  When that report
fails with an error, it returns no resolver and that error, and issues no command; when the
report is Windows, it returns the Windows strategy and issues no command; otherwise it
issues the probe `uname | grep -q Darwin` exactly once and returns the Darwin strategy when
the probe succeeds and the Linux strategy when it fails. -/
theorem C12_resolver_selection {σ : Type} (R : Runner σ) (h : Host σ) (b : Bool)
    (e : error) :
    ((R.IsWindows h.ext).1 = (b, some e) →
      GetResolver R h = ((none, some e),
        { ext := (R.IsWindows h.ext).2, trace := h.trace ++ [RunCall.IsWindows] })) ∧
    ((R.IsWindows h.ext).1 = (true, none) →
      GetResolver R h = ((some Resolver.WindowsResolver, none),
        { ext := (R.IsWindows h.ext).2, trace := h.trace ++ [RunCall.IsWindows] })) ∧
    ((R.IsWindows h.ext).1 = (false, none) →
      (R.Exec "uname | grep -q Darwin" (R.IsWindows h.ext).2).1 = none →
      GetResolver R h = ((some Resolver.DarwinResolver, none),
        { ext := (R.Exec "uname | grep -q Darwin" (R.IsWindows h.ext).2).2
          trace := h.trace ++ [RunCall.IsWindows]
            ++ [RunCall.Exec "uname | grep -q Darwin"] })) ∧
    ((R.IsWindows h.ext).1 = (false, none) →
      (R.Exec "uname | grep -q Darwin" (R.IsWindows h.ext).2).1 = some e →
      GetResolver R h = ((some Resolver.LinuxResolver, none),
        { ext := (R.Exec "uname | grep -q Darwin" (R.IsWindows h.ext).2).2
          trace := h.trace ++ [RunCall.IsWindows]
            ++ [RunCall.Exec "uname | grep -q Darwin"] })) := by
  refine ⟨?_, ?_, ?_, ?_⟩
  · intro hw
    simp [GetResolver, Runner.callIsWindows, hw]
  · intro hw
    simp [GetResolver, Runner.callIsWindows, hw]
  · intro hw hx
    simp [GetResolver, Runner.callIsWindows, Runner.callExec, hw, hx]
  · intro hw hx
    simp [GetResolver, Runner.callIsWindows, Runner.callExec, hw, hx]

/-- Witness of C12: the four cases on `countRunner`. -/
theorem C12_resolver_selection_witness :
    GetResolver (countRunner false true false 0) (initHost 0)
      = ((none, some (error.foreign "platform unknown")),
        { ext := 0, trace := [RunCall.IsWindows] }) ∧
    GetResolver (countRunner true false false 0) (initHost 0)
      = ((some Resolver.WindowsResolver, none), { ext := 0, trace := [RunCall.IsWindows] }) ∧
    GetResolver (countRunner false false true 0) (initHost 0)
      = ((some Resolver.DarwinResolver, none),
        { ext := 1, trace := [RunCall.IsWindows, RunCall.Exec "uname | grep -q Darwin"] }) ∧
    GetResolver (countRunner false false false 0) (initHost 0)
      = ((some Resolver.LinuxResolver, none),
        { ext := 1, trace := [RunCall.IsWindows, RunCall.Exec "uname | grep -q Darwin"] }) :=
  ⟨(C12_resolver_selection (countRunner false true false 0) (initHost 0) false
      (error.foreign "platform unknown")).1 rfl,
    (C12_resolver_selection (countRunner true false false 0) (initHost 0) true
      (error.foreign "platform unknown")).2.1 rfl,
    (C12_resolver_selection (countRunner false false true 0) (initHost 0) false
      (error.foreign "exit status 1")).2.2.1 rfl rfl,
    (C12_resolver_selection (countRunner false false false 0) (initHost 0) false
      (error.foreign "exit status 1")).2.2.2 rfl rfl⟩

/-- C12 fails as stated: on a runner whose platform report fails (and so does not report
Windows) `GetResolver` returns no strategy at all and never issues the Darwin probe. -/
theorem C12_counterexample :
    (countRunner false true false 0).IsWindows 0
      = ((false, some (error.foreign "platform unknown")), 0) ∧
    (GetResolver (countRunner false true false 0) (initHost 0)).1
      = (none, some (error.foreign "platform unknown")) ∧
    RunCall.Exec "uname | grep -q Darwin"
      ∉ (GetResolver (countRunner false true false 0) (initHost 0)).2.trace := by
  decide

/-! ## The Windows strategy -/

theorem hostAfter_trace {σ : Type} (R : Runner σ) (cmds : List String) (h : Host σ) :
    (hostAfter R cmds h).trace = h.trace ++ cmds.map RunCall.ExecWithOutput := by
  induction cmds generalizing h with
  | nil => simp [hostAfter]
  | cons cmd cmds ih =>
    simp [hostAfter, ih, Runner.callExecWithOutput]

/-- C13: `WindowsResolver.Resolve` issues the queries for `ProductName`,
`CurrentMajorVersionNumber`, `CurrentMinorVersionNumber` and `CurrentBuild` in that order.
When the first query to fail is the i-th, with error `e`, the result is the empty record
and `e`, and the host is the one after the first i queries: no later query was issued.  When
all four succeed with outputs `n`, `a`, `b`, `c`, the result is the record with id and
idLike `windows`, version `a.b.c` and name `n`, and no error.  The host after some queries
has exactly these queries added to its trace. -/
theorem C13_windows_all_or_nothing {σ : Type} (psCmd : String → String) (R : Runner σ)
    (h : Host σ) (n a b c x : String) (e : error) :
    ((R.callExecWithOutput (psCmd (regQuery "ProductName")) h).1 = (x, some e) →
      WindowsResolve psCmd R h
        = ((zeroOSVersion, some e), hostAfter R [psCmd (regQuery "ProductName")] h)) ∧
    ((R.callExecWithOutput (psCmd (regQuery "ProductName")) h).1 = (n, none) →
      (R.callExecWithOutput (psCmd (regQuery "CurrentMajorVersionNumber"))
        (hostAfter R [psCmd (regQuery "ProductName")] h)).1 = (x, some e) →
      WindowsResolve psCmd R h
        = ((zeroOSVersion, some e), hostAfter R [psCmd (regQuery "ProductName"),
            psCmd (regQuery "CurrentMajorVersionNumber")] h)) ∧
    ((R.callExecWithOutput (psCmd (regQuery "ProductName")) h).1 = (n, none) →
      (R.callExecWithOutput (psCmd (regQuery "CurrentMajorVersionNumber"))
        (hostAfter R [psCmd (regQuery "ProductName")] h)).1 = (a, none) →
      (R.callExecWithOutput (psCmd (regQuery "CurrentMinorVersionNumber"))
        (hostAfter R [psCmd (regQuery "ProductName"),
          psCmd (regQuery "CurrentMajorVersionNumber")] h)).1 = (x, some e) →
      WindowsResolve psCmd R h
        = ((zeroOSVersion, some e), hostAfter R [psCmd (regQuery "ProductName"),
            psCmd (regQuery "CurrentMajorVersionNumber"),
            psCmd (regQuery "CurrentMinorVersionNumber")] h)) ∧
    ((R.callExecWithOutput (psCmd (regQuery "ProductName")) h).1 = (n, none) →
      (R.callExecWithOutput (psCmd (regQuery "CurrentMajorVersionNumber"))
        (hostAfter R [psCmd (regQuery "ProductName")] h)).1 = (a, none) →
      (R.callExecWithOutput (psCmd (regQuery "CurrentMinorVersionNumber"))
        (hostAfter R [psCmd (regQuery "ProductName"),
          psCmd (regQuery "CurrentMajorVersionNumber")] h)).1 = (b, none) →
      (R.callExecWithOutput (psCmd (regQuery "CurrentBuild"))
        (hostAfter R [psCmd (regQuery "ProductName"),
          psCmd (regQuery "CurrentMajorVersionNumber"),
          psCmd (regQuery "CurrentMinorVersionNumber")] h)).1 = (x, some e) →
      WindowsResolve psCmd R h
        = ((zeroOSVersion, some e), hostAfter R [psCmd (regQuery "ProductName"),
            psCmd (regQuery "CurrentMajorVersionNumber"),
            psCmd (regQuery "CurrentMinorVersionNumber"),
            psCmd (regQuery "CurrentBuild")] h)) ∧
    ((R.callExecWithOutput (psCmd (regQuery "ProductName")) h).1 = (n, none) →
      (R.callExecWithOutput (psCmd (regQuery "CurrentMajorVersionNumber"))
        (hostAfter R [psCmd (regQuery "ProductName")] h)).1 = (a, none) →
      (R.callExecWithOutput (psCmd (regQuery "CurrentMinorVersionNumber"))
        (hostAfter R [psCmd (regQuery "ProductName"),
          psCmd (regQuery "CurrentMajorVersionNumber")] h)).1 = (b, none) →
      (R.callExecWithOutput (psCmd (regQuery "CurrentBuild"))
        (hostAfter R [psCmd (regQuery "ProductName"),
          psCmd (regQuery "CurrentMajorVersionNumber"),
          psCmd (regQuery "CurrentMinorVersionNumber")] h)).1 = (c, none) →
      WindowsResolve psCmd R h
        = (({ ID := "windows", IDLike := "windows", Version := a ++ "." ++ b ++ "." ++ c,
              Name := n }, none),
          hostAfter R [psCmd (regQuery "ProductName"),
            psCmd (regQuery "CurrentMajorVersionNumber"),
            psCmd (regQuery "CurrentMinorVersionNumber"),
            psCmd (regQuery "CurrentBuild")] h)) ∧
    (∀ cmds : List String,
      (hostAfter R cmds h).trace = h.trace ++ cmds.map RunCall.ExecWithOutput) := by
  refine ⟨?_, ?_, ?_, ?_, ?_, fun cmds => hostAfter_trace R cmds h⟩
  · intro q1
    unfold WindowsResolve
    rw [← Prod.mk.eta (p := R.callExecWithOutput (psCmd (regQuery "ProductName")) h), q1]
    rfl
  · intro q1 q2
    unfold WindowsResolve
    rw [← Prod.mk.eta (p := R.callExecWithOutput (psCmd (regQuery "ProductName")) h), q1]
    simp only [hostAfter] at q2
    simp only
    rw [← Prod.mk.eta (p := R.callExecWithOutput _ _), q2]
    rfl
  · intro q1 q2 q3
    unfold WindowsResolve
    rw [← Prod.mk.eta (p := R.callExecWithOutput (psCmd (regQuery "ProductName")) h), q1]
    simp only [hostAfter] at q2 q3
    simp only
    rw [← Prod.mk.eta (p := R.callExecWithOutput _ _), q2]
    simp only
    rw [← Prod.mk.eta (p := R.callExecWithOutput _ _), q3]
    rfl
  · intro q1 q2 q3 q4
    unfold WindowsResolve
    rw [← Prod.mk.eta (p := R.callExecWithOutput (psCmd (regQuery "ProductName")) h), q1]
    simp only [hostAfter] at q2 q3 q4
    simp only
    rw [← Prod.mk.eta (p := R.callExecWithOutput _ _), q2]
    simp only
    rw [← Prod.mk.eta (p := R.callExecWithOutput _ _), q3]
    simp only
    rw [← Prod.mk.eta (p := R.callExecWithOutput _ _), q4]
    rfl
  · intro q1 q2 q3 q4
    unfold WindowsResolve
    rw [← Prod.mk.eta (p := R.callExecWithOutput (psCmd (regQuery "ProductName")) h), q1]
    simp only [hostAfter] at q2 q3 q4
    simp only
    rw [← Prod.mk.eta (p := R.callExecWithOutput _ _), q2]
    simp only
    rw [← Prod.mk.eta (p := R.callExecWithOutput _ _), q3]
    simp only
    rw [← Prod.mk.eta (p := R.callExecWithOutput _ _), q4]
    rfl

/-- Witness of C13: on `countRunner` all four queries succeed when none is set to fail, and
the third query is the first to fail when it is set to. -/
theorem C13_windows_all_or_nothing_witness :
    WindowsResolve id (countRunner true false false 9) (initHost 0)
      = (({ ID := "windows", IDLike := "windows",
            Version := "0" ++ "." ++ "19045" ++ "." ++ "x", Name := "10" }, none),
        hostAfter (countRunner true false false 9) [id (regQuery "ProductName"),
          id (regQuery "CurrentMajorVersionNumber"),
          id (regQuery "CurrentMinorVersionNumber"),
          id (regQuery "CurrentBuild")] (initHost 0)) ∧
    WindowsResolve id (countRunner true false false 2) (initHost 0)
      = ((zeroOSVersion, some (error.foreign "query failed")),
        hostAfter (countRunner true false false 2) [id (regQuery "ProductName"),
          id (regQuery "CurrentMajorVersionNumber"),
          id (regQuery "CurrentMinorVersionNumber")] (initHost 0)) ∧
    (hostAfter (countRunner true false false 2) [id (regQuery "ProductName"),
        id (regQuery "CurrentMajorVersionNumber"),
        id (regQuery "CurrentMinorVersionNumber")] (initHost 0)).trace
      = (initHost 0).trace ++ [id (regQuery "ProductName"),
        id (regQuery "CurrentMajorVersionNumber"),
        id (regQuery "CurrentMinorVersionNumber")].map RunCall.ExecWithOutput :=
  ⟨(C13_windows_all_or_nothing id (countRunner true false false 9) (initHost 0)
      "10" "0" "19045" "x" "" (error.foreign "query failed")).2.2.2.2.1 rfl rfl rfl rfl,
    (C13_windows_all_or_nothing id (countRunner true false false 2) (initHost 0)
      "10" "0" "" "" "19045" (error.foreign "query failed")).2.2.1 rfl rfl rfl,
    (C13_windows_all_or_nothing id (countRunner true false false 2) (initHost 0)
      "10" "0" "" "" "19045" (error.foreign "query failed")).2.2.2.2.2 _⟩

/-! ## The standalone Linux resolver -/

/-- C20: `ResolveLinux` returns no record and false without any call when the runner
reports Windows; no record and false after the probe alone when the probe
`uname | grep -q Linux` fails; no record and false when decoding fails; and the decoded
record and true when the runner is not Windows, the probe succeeds and decoding succeeds.
In every case a record is returned exactly when the flag is true. -/
theorem C20_resolve_linux {σ ρ rd : Type} (conn : SimpleRunner σ ρ rd) (h : Host σ)
    (e : error) (v : ρ) :
    (conn.IsWindows h.ext = true → ResolveLinux conn h = ((none, false), h)) ∧
    (conn.IsWindows h.ext = false →
      (conn.Exec "uname | grep -q Linux" h.ext).1 = some e →
      ResolveLinux conn h = ((none, false),
        { ext := (conn.Exec "uname | grep -q Linux" h.ext).2
          trace := h.trace ++ [RunCall.Exec "uname | grep -q Linux"] })) ∧
    (conn.IsWindows h.ext = false →
      (conn.Exec "uname | grep -q Linux" h.ext).1 = none →
      (conn.Decode
        (conn.ExecReader "cat /etc/os-release || cat /usr/lib/os-release"
          (conn.Exec "uname | grep -q Linux" h.ext).2).1 conn.zero
        (conn.ExecReader "cat /etc/os-release || cat /usr/lib/os-release"
          (conn.Exec "uname | grep -q Linux" h.ext).2).2).1 = (v, some e) →
      (ResolveLinux conn h).1 = (none, false)) ∧
    (conn.IsWindows h.ext = false →
      (conn.Exec "uname | grep -q Linux" h.ext).1 = none →
      (conn.Decode
        (conn.ExecReader "cat /etc/os-release || cat /usr/lib/os-release"
          (conn.Exec "uname | grep -q Linux" h.ext).2).1 conn.zero
        (conn.ExecReader "cat /etc/os-release || cat /usr/lib/os-release"
          (conn.Exec "uname | grep -q Linux" h.ext).2).2).1 = (v, none) →
      (ResolveLinux conn h).1 = (some v, true)) ∧
    (((ResolveLinux conn h).1.1).isSome = (ResolveLinux conn h).1.2) ∧
    ((ResolveLinux conn h).1.2 = true ↔
      conn.IsWindows h.ext = false ∧
      (conn.Exec "uname | grep -q Linux" h.ext).1 = none ∧
      (conn.Decode
        (conn.ExecReader "cat /etc/os-release || cat /usr/lib/os-release"
          (conn.Exec "uname | grep -q Linux" h.ext).2).1 conn.zero
        (conn.ExecReader "cat /etc/os-release || cat /usr/lib/os-release"
          (conn.Exec "uname | grep -q Linux" h.ext).2).2).1.2 = none) := by
  unfold ResolveLinux
  cases hw : conn.IsWindows h.ext with
  | true => simp
  | false =>
    simp only [Bool.false_eq_true, if_false]
    rcases hx : conn.Exec "uname | grep -q Linux" h.ext with ⟨ex, s1⟩
    cases ex with
    | some e1 => simp
    | none =>
      rcases hr : conn.ExecReader "cat /etc/os-release || cat /usr/lib/os-release" s1
        with ⟨reader, s2⟩
      rcases hd : conn.Decode reader conn.zero s2 with ⟨⟨v1, ed⟩, s3⟩
      cases ed with
      | some e2 => simp [hr, hd]
      | none => simp [hr, hd]

/-- Witness of C20: the four cases on `plainRunner`. -/
theorem C20_resolve_linux_witness :
    ResolveLinux (plainRunner true true true) (initHost ()) = ((none, false), initHost ()) ∧
    ResolveLinux (plainRunner false false true) (initHost ())
      = ((none, false),
        { ext := ((plainRunner false false true).Exec "uname | grep -q Linux"
            (initHost ()).ext).2
          trace := (initHost ()).trace ++ [RunCall.Exec "uname | grep -q Linux"] }) ∧
    (ResolveLinux (plainRunner false true false) (initHost ())).1 = (none, false) ∧
    (ResolveLinux (plainRunner false true true) (initHost ())).1 = (some 7, true) :=
  ⟨(C20_resolve_linux (plainRunner true true true) (initHost ())
      (error.foreign "exit status 1") 7).1 rfl,
    (C20_resolve_linux (plainRunner false false true) (initHost ())
      (error.foreign "exit status 1") 7).2.1 rfl rfl,
    (C20_resolve_linux (plainRunner false true false) (initHost ())
      (error.foreign "unexpected EOF") 7).2.2.1 rfl rfl rfl,
    (C20_resolve_linux (plainRunner false true true) (initHost ())
      (error.foreign "unexpected EOF") 7).2.2.2.1 rfl rfl rfl⟩

/-! ## GroupParams -/

theorem length_filterMap_sum {α β : Type} (l : List (α ⊕ β)) :
    (l.filterMap Sum.getLeft?).length + (l.filterMap Sum.getRight?).length = l.length := by
  induction l with
  | nil => rfl
  | cons x xs ih =>
    cases x with
    | inl a => simp [List.filterMap_cons]; omega
    | inr b => simp [List.filterMap_cons]; omega

theorem GroupParams_eq_leaves {α : Type} :
    ∀ ps : List (Param α), GroupParams ps = (optionLeaves ps, valueLeaves ps)
  | [] => by simp [GroupParams, optionLeaves, valueLeaves, leaves]
  | Param.list vv :: rest => by
    have h1 := GroupParams_eq_leaves vv
    have h2 := GroupParams_eq_leaves rest
    simp only [GroupParams, h1, h2, optionLeaves, valueLeaves, leaves, List.filterMap_append]
  | Param.option o :: rest => by
    have h2 := GroupParams_eq_leaves rest
    simp [GroupParams, h2, optionLeaves, valueLeaves, leaves, List.filterMap_cons]
  | Param.value v :: rest => by
    have h2 := GroupParams_eq_leaves rest
    simp [GroupParams, h2, optionLeaves, valueLeaves, leaves, List.filterMap_cons]

/-- C15: `GroupParams` is a total function on nested parameter lists; its options are the
option-typed leaves of the list, flattened depth first, in their order, its format
arguments are all other leaves in their order, and the two lengths add up to the number of
leaves. -/
theorem C15_group_params {α : Type} (ps : List (Param α)) :
    GroupParams ps = (optionLeaves ps, valueLeaves ps) ∧
    (GroupParams ps).1.length + (GroupParams ps).2.length = (leaves ps).length ∧
    GroupParams [Param.value 1, Param.list [Param.option (ExecOption.given 7),
        Param.list [Param.value 2], Param.option ExecOption.Output], Param.value 3]
      = ([ExecOption.given 7, ExecOption.Output], [1, 2, 3]) := by
  refine ⟨GroupParams_eq_leaves ps, ?_, ?_⟩
  · rw [GroupParams_eq_leaves ps]
    exact length_filterMap_sum (leaves ps)
  · simp [GroupParams]

/-! ## IsWindows -/

/-- C19: on a `Connection` without descriptor and without transport instance `IsWindows`
calls a method on the nil interface and panics, as it does not on any other `Connection`:
with a descriptor and no transport instance it gives the descriptor's platform report, and
with a transport instance and no descriptor the instance's. -/
theorem C19_IsWindows_nil_panics {σ : Type} (E : Env σ) (w : World σ)
    (o : Option OSVersion) (f : Option sudofn) (p : Ptr) (L S : Option Ptr) (cl : client) :
    IsWindows E emptyConnection w
      = Res.panic "invalid memory address or nil pointer dereference" ∧
    IsWindows E (mkConnection none none none o none f) w
      = Res.panic "invalid memory address or nil pointer dereference" ∧
    IsWindows E (mkConnection (some p) L S o none f) w
      = Res.ok (E.T.IsWindows (client.WinRM p) w.ext) ∧
    IsWindows E (mkConnection none (some p) S o none f) w
      = Res.ok (E.T.IsWindows (client.Localhost p) w.ext) ∧
    IsWindows E (mkConnection none none (some p) o none f) w
      = Res.ok (E.T.IsWindows (client.SSH p) w.ext) ∧
    IsWindows E (mkConnection none none none o (some cl) f) w
      = Res.ok (E.T.IsWindows cl w.ext) ∧
    Protocol E emptyConnection w = "" ∧
    Address E emptyConnection w = "" := by
  refine ⟨rfl, rfl, rfl, rfl, rfl, ?_, rfl, rfl⟩
  cases hl : E.T.IsConnected cl w.ext <;>
    simp [IsWindows, IsConnected, mkConnection, configuredClient, theClient, hl]

/-! ## Connect when the OS resolver fails -/

/-- C18: when the defaulting step and the transport connect of `Connect` succeed, no OS
identity is cached and the OS resolver returns the error `e`, `Connect` returns `e` itself;
`OSVersion` stays unset and the elevation strategy is the one before; the transport
instance stays installed; after the transport connect the only call made is the one of the
resolver, so no probe was run and the transport was not disconnected; `IsConnected` is what
the transport reports. -/
theorem C18_resolver_failure {σ : Type} (E : Env σ) (c c1 : Connection) (w w1 : World σ)
    (cl : client) (e : error) (s s3 : σ)
    (ho : c.OSVersion = none)
    (hd : connectDefaults E c w = (none, c1, w1)) (hc : c1.client = some cl)
    (he : E.T.Connect cl w1.ext = (none, s))
    (hr : E.GetOSVersion c1 s = (Except.error e, s3)) :
    ∃ w3,
      Connect E c w = Res.ok (some e, c1, w3) ∧
      c1.OSVersion = none ∧
      c1.sudofunc = c.sudofunc ∧
      c1.client = some cl ∧
      w3.calls = w1.calls ++ [Call.Connect cl, Call.GetOSVersion] ∧
      w3.ext = s3 ∧
      IsConnected E c1 w3 = E.T.IsConnected cl s3 := by
  have hs := connectDefaults_spec E c w
  rw [hd] at hs
  have ho1 : c1.OSVersion = none := hs.1.trans ho
  refine ⟨{ w1 with ext := s3, calls := w1.calls ++ [Call.Connect cl, Call.GetOSVersion] },
    ?_, ho1, hs.2.1, hc, rfl, rfl, ?_⟩
  · unfold Connect
    rw [hd]
    simp [theClient, hc, he, ho1, World.log, hr]
  · simp [IsConnected, hc]

/-- Witness of C18: a `Localhost` descriptor over `flagTransport` with a failing resolver;
`Connect` returns the resolver's error and the `Connection` reports connected. -/
theorem C18_resolver_failure_witness :
    (mkConnection none (some 0) none none none none).OSVersion = none ∧
    ∃ w3,
      Connect lostEnv (mkConnection none (some 0) none none none none) (initWorld false)
        = Res.ok (some (error.foreign "unable to determine host os"),
            mkConnection none (some 0) none none (some (client.Localhost 0)) none, w3) ∧
      (mkConnection none (some 0) none none (some (client.Localhost 0)) none).OSVersion
        = none ∧
      (mkConnection none (some 0) none none (some (client.Localhost 0)) none).sudofunc
        = (mkConnection none (some 0) none none none none).sudofunc ∧
      (mkConnection none (some 0) none none (some (client.Localhost 0)) none).client
        = some (client.Localhost 0) ∧
      w3.calls = [Call.defaultsSet] ++ [Call.Connect (client.Localhost 0), Call.GetOSVersion] ∧
      w3.ext = true ∧
      IsConnected lostEnv
          (mkConnection none (some 0) none none (some (client.Localhost 0)) none) w3
        = lostEnv.T.IsConnected (client.Localhost 0) true :=
  ⟨rfl, C18_resolver_failure lostEnv (mkConnection none (some 0) none none none none)
    (mkConnection none (some 0) none none (some (client.Localhost 0)) none)
    (initWorld false)
    { localhost := fun _ => { Enabled := false }, next := 0, ext := false,
      calls := [Call.defaultsSet] }
    (client.Localhost 0) (error.foreign "unable to determine host os") true true
    rfl (by simp [connectDefaults, mkConnection, defaultsSet, lostEnv, SetDefaults,
      configuredClient, defaultsSetClient, World.log, initWorld]) rfl rfl rfl⟩

/-! ## The elevation probes -/

/-- When every probe of the list fails, the probe loop leaves the `Connection` as it
is. -/
theorem sudoLoop_of_allProbesFail {σ : Type} (E : Env σ) (c : Connection)
    (l : List (String × sudofn)) (w : World σ) (hf : allProbesFail E c l w = true) :
    ∃ w1, sudoLoop E c l w = Res.ok (c, w1) := by
  induction l generalizing w with
  | nil => exact ⟨w, rfl⟩
  | cons a rest ih =>
    obtain ⟨check, fn⟩ := a
    unfold allProbesFail at hf
    unfold sudoLoop
    cases hx : Exec E c check [] w with
    | panic m => simp [hx] at hf
    | ok r =>
      obtain ⟨e, out, w1⟩ := r
      cases e with
      | none => simp [hx] at hf
      | some err =>
        rw [hx] at hf
        exact ih w1 hf

/-- When every probe `configureSudo` issues fails, it leaves the `Connection` as it is. -/
theorem configureSudo_of_allProbesFail {σ : Type} (E : Env σ) (c : Connection)
    (w : World σ) (o : OSVersion) (ho : c.OSVersion = some o)
    (hf : allProbesFail E c (issuedProbes E o) w = true) :
    ∃ w1, configureSudo E c w = Res.ok (c, w1) := by
  unfold configureSudo
  rw [ho]
  dsimp only
  unfold issuedProbes at hf
  by_cases hw : o.ID = "windows"
  · rw [if_pos hw] at hf ⊢
    unfold allProbesFail at hf
    cases hx : Exec E c sudoCheckWindows [] w with
    | panic m => simp [hx] at hf
    | ok r =>
      obtain ⟨e, out, w1⟩ := r
      cases e with
      | none => simp [hx] at hf
      | some err => exact ⟨w1, rfl⟩
  · rw [if_neg hw] at hf ⊢
    exact sudoLoop_of_allProbesFail E c _ w hf

/-- C14, as the code has it: take a `Connect` whose defaulting step and transport connect
succeed and whose OS identity `o` is cached (world `wS` after the transport connect) or
resolved (world `wS` after the resolver), so that the probe sequence runs, on the
`Connection` `cS` in the world `wS`.  When every probe it issues fails, `Connect` returns no
error and the elevation strategy afterwards is the one before the `Connect`: `Sudo` gives
what it gave before, so the strategy is still set when an earlier `Connect` had resolved
one; when it was unset before it is unset afterwards and `Sudo` fails with
`ErrSudoRequired`. -/
theorem C14_failed_probes_keep_strategy {σ : Type} (E : Env σ) (c c1 cS : Connection)
    (w w1 wS : World σ) (cl : client) (s : σ) (o : OSVersion) (cmd : String)
    (hd : connectDefaults E c w = (none, c1, w1)) (hc : c1.client = some cl)
    (he : E.T.Connect cl w1.ext = (none, s))
    (hos : (c1.OSVersion = some o ∧ cS = c1 ∧
        wS = ({ w1 with ext := s }).log (Call.Connect cl)) ∨
      (c1.OSVersion = none ∧ cS = { c1 with OSVersion := some o } ∧
        ∃ s3, E.GetOSVersion c1 s = (Except.ok o, s3) ∧
          wS = ({ ({ w1 with ext := s }).log (Call.Connect cl) with ext := s3 }).log
            Call.GetOSVersion))
    (hf : allProbesFail E cS (issuedProbes E o) wS = true) :
    ∃ w3,
      Connect E c w = Res.ok (none, cS, w3) ∧
      cS.sudofunc = c.sudofunc ∧
      Sudo cS cmd = Sudo c cmd ∧
      (c.sudofunc = none →
        cS.sudofunc = none ∧ Sudo cS cmd = ("", some sudoRequired)) := by
  have hs := connectDefaults_spec E c w
  rw [hd] at hs
  rcases hos with ⟨ho, hcS, hwS⟩ | ⟨ho, hcS, s3, hres, hwS⟩
  · subst hcS hwS
    obtain ⟨w3, h3⟩ := configureSudo_of_allProbesFail E cS _ o ho hf
    have hsf : cS.sudofunc = c.sudofunc := hs.2.1
    refine ⟨w3, ?_, hsf, by simp [Sudo, hsf],
      fun hn => ⟨hsf.trans hn, by simp [Sudo, hsf, hn]⟩⟩
    unfold Connect
    rw [hd]
    simp only [theClient, hc, he, ho, h3]
  · subst hcS hwS
    obtain ⟨w3, h3⟩ := configureSudo_of_allProbesFail E { c1 with OSVersion := some o } _ o
      rfl hf
    have hsf : c1.sudofunc = c.sudofunc := hs.2.1
    refine ⟨w3, ?_, hsf, by simp [Sudo, hsf],
      fun hn => ⟨hsf.trans hn, by simp [Sudo, hsf, hn]⟩⟩
    unfold Connect
    rw [hd]
    simp only [theClient, hc, he, ho, hres, World.log] at h3 ⊢
    rw [h3]

/-- Witness of C14, two instances over `fadingTransport`.  The reconnect: the first
`Connect` has resolved the doas strategy; in the second one the OS identity is cached and all
three probes fail; the strategy is still the doas one afterwards.  The late first
`Connect`: the OS identity is resolved, all three probes fail, and the strategy stays
unset. -/
theorem C14_failed_probes_keep_strategy_witness :
    ((reconnectStart.1.sudofunc).isSome = true ∧
      reconnectStart.1.client = none ∧
      allProbesFail fadingEnv reconnectDefaulted.2.1 (issuedProbes fadingEnv alpineOS)
        reconnectProbed = true ∧
      ∃ w3,
        Connect fadingEnv reconnectStart.1 reconnectStart.2
          = Res.ok (none, reconnectDefaulted.2.1, w3) ∧
        reconnectDefaulted.2.1.sudofunc = reconnectStart.1.sudofunc ∧
        Sudo reconnectDefaulted.2.1 "ls" = Sudo reconnectStart.1 "ls" ∧
        (reconnectStart.1.sudofunc = none →
          reconnectDefaulted.2.1.sudofunc = none ∧
            Sudo reconnectDefaulted.2.1 "ls" = ("", some sudoRequired))) ∧
    (lateStart.1.sudofunc = none ∧
      allProbesFail fadingEnv { lateDefaulted.2.1 with OSVersion := some alpineOS }
        (issuedProbes fadingEnv alpineOS) lateProbed = true ∧
      ∃ w3,
        Connect fadingEnv lateStart.1 lateStart.2
          = Res.ok (none, { lateDefaulted.2.1 with OSVersion := some alpineOS }, w3) ∧
        ({ lateDefaulted.2.1 with OSVersion := some alpineOS } : Connection).sudofunc
          = lateStart.1.sudofunc ∧
        Sudo { lateDefaulted.2.1 with OSVersion := some alpineOS } "ls"
          = Sudo lateStart.1 "ls" ∧
        (lateStart.1.sudofunc = none →
          ({ lateDefaulted.2.1 with OSVersion := some alpineOS } : Connection).sudofunc
              = none ∧
            Sudo { lateDefaulted.2.1 with OSVersion := some alpineOS } "ls"
              = ("", some sudoRequired))) :=
  ⟨⟨rfl, rfl, rfl,
    C14_failed_probes_keep_strategy fadingEnv reconnectStart.1 reconnectDefaulted.2.1
      reconnectDefaulted.2.1 reconnectStart.2 reconnectDefaulted.2.2 reconnectProbed
      (client.Localhost 0) 2 alpineOS "ls" rfl rfl rfl (Or.inl ⟨rfl, rfl, rfl⟩) rfl⟩,
   ⟨rfl, rfl,
    C14_failed_probes_keep_strategy fadingEnv lateStart.1 lateDefaulted.2.1
      { lateDefaulted.2.1 with OSVersion := some alpineOS } lateStart.2 lateDefaulted.2.2
      lateProbed (client.Localhost 0) 2 alpineOS "ls" rfl rfl rfl
      (Or.inr ⟨rfl, rfl, 2, rfl, rfl⟩) rfl⟩⟩

/-- C14 fails as stated: over `fadingTransport` the first `Connect` resolves the doas
strategy; after `Disconnect` a second `Connect` succeeds, issues the three probes again,
every command fails in that state of the host, and yet the strategy is still set and `Sudo`
succeeds. -/
theorem C14_counterexample :
    ∃ c1 w1 c2 w2,
      Connect fadingEnv (mkConnection none (some 0) none none none none) (initWorld 0)
        = Res.ok (none, c1, w1) ∧
      Connect fadingEnv (Disconnect fadingEnv c1 w1).1 (Disconnect fadingEnv c1 w1).2
        = Res.ok (none, c2, w2) ∧
      w2.ext = 2 ∧
      (∀ (cl : client) (cmd : String) (opts : List ExecOption),
        (fadingTransport.Exec cl cmd opts 2).1.1 ≠ none) ∧
      w2.calls
        = [Call.defaultsSet, Call.Connect (client.Localhost 0), Call.GetOSVersion]
          ++ (sudoChecks goShell).map (fun x => Call.Exec (client.Localhost 0) x.1 [])
          ++ [Call.Disconnect (client.Localhost 0), Call.defaultsSet,
            Call.Connect (client.Localhost 0)]
          ++ (sudoChecks goShell).map (fun x => Call.Exec (client.Localhost 0) x.1 []) ∧
      (c2.sudofunc).isSome = true ∧
      Sudo c2 "ls" = ("doas -s -- ls", none) :=
  ⟨_, _, _, _, rfl, rfl, rfl, fun _ _ _ => by simp [fadingTransport], rfl, rfl, rfl⟩

/-! ## The transport reference and `IsConnected` -/

/-- C17, as the code has it: in every state reached from a `Connection` without transport
instance by a sequence of `SetDefaults`, `Connect`, `Disconnect`, `Exec`, `Upload`, `Sudo`
and `IsWindows` calls, `IsConnected` is true exactly when there is a transport instance and
that instance reports live; so without transport instance `IsConnected` is false, and
`IsConnected` true means there is one. -/
theorem C17_connected_iff_live {σ : Type} (E : Env σ) (ops : List Op)
    (W L S : Option Ptr) (w w1 : World σ) (c1 : Connection)
    (_hrun : run E ops (mkConnection W L S none none none, w) = Res.ok (c1, w1)) :
    (IsConnected E c1 w1 = true ↔
      ∃ cl, c1.client = some cl ∧ E.T.IsConnected cl w1.ext = true) ∧
    (c1.client = none → IsConnected E c1 w1 = false) ∧
    (IsConnected E c1 w1 = true → c1.client ≠ none) := by
  cases hcl : c1.client with
  | none => simp [IsConnected, hcl]
  | some cl => simp [IsConnected, hcl]

/-- Witness of C17: a `Connect` over `flagTransport`. -/
theorem C17_connected_iff_live_witness :
    ∃ c1 w1,
      run flagEnv [Op.Connect] (mkConnection none (some 0) none none none none,
        initWorld false) = Res.ok (c1, w1) ∧
      ((IsConnected flagEnv c1 w1 = true ↔
        ∃ cl, c1.client = some cl ∧ flagEnv.T.IsConnected cl w1.ext = true) ∧
      (c1.client = none → IsConnected flagEnv c1 w1 = false) ∧
      (IsConnected flagEnv c1 w1 = true → c1.client ≠ none)) ∧
      IsConnected flagEnv c1 w1 = true :=
  ⟨_, _, rfl,
    C17_connected_iff_live flagEnv [Op.Connect] none (some 0) none (initWorld false) _ _ rfl,
    rfl⟩

/-- C17 fails as stated: after `SetDefaults` on a `Connection` with an `SSH` descriptor the
transport instance is installed, and `IsConnected` is false, the transport not being
connected yet. -/
theorem C17_counterexample :
    ∃ c1 w1,
      run flagEnv [Op.SetDefaults] (mkConnection none none (some 0) none none none,
        initWorld false) = Res.ok (c1, w1) ∧
      c1.client = some (client.SSH 0) ∧
      IsConnected flagEnv c1 w1 = false :=
  ⟨_, _, rfl, rfl, rfl⟩

/-! ## Unquoting os-release values -/

/-- A single-quoted text of two or more characters is not a Go character literal:
`unquote` gives it back with its quotes. -/
theorem unquote_single_quoted (esc : String → Option String) (v : List Char)
    (h2 : 2 ≤ v.length) (hq : chSQ ∉ v) (hl : chLF ∉ v) (hb : chBS ∉ v) :
    unquote esc (String.mk (chSQ :: v ++ [chSQ])) = String.mk (chSQ :: v ++ [chSQ]) := by
  cases v with
  | nil => simp at h2
  | cons c cs =>
    have hi := indexOfChar_append chSQ (c :: cs) [] hq
    have hne : chSQ ≠ chBQ := by decide
    have h3 : 1 ≤ cs.length := by
      simp only [List.length_cons] at h2
      omega
    simp only [List.cons_append] at hi ⊢
    simp [unquote, strconvUnquote, hi, hne, hl, hb, h3]

/-- A double-quoted text without double quote, line feed or backslash inside is unquoted
by `unquote`. -/
theorem unquote_double_quoted (esc : String → Option String) (v : List Char)
    (hq : chDQ ∉ v) (hl : chLF ∉ v) (hb : chBS ∉ v) :
    unquote esc (String.mk (chDQ :: v ++ [chDQ])) = String.mk v := by
  have hi := indexOfChar_append chDQ v [] hq
  have hne : chDQ ≠ chBQ := by decide
  have hne2 : chDQ ≠ chSQ := by decide
  cases v with
  | nil => simp [unquote, strconvUnquote, indexOfChar, hne, hne2]
  | cons c cs =>
    simp only [List.cons_append] at hi ⊢
    simp [unquote, strconvUnquote, hi, hne, hne2, hl, hb]

theorem plainChar_not_special (v : List Char) (hp : ∀ c ∈ v, plainChar c = true) :
    chSQ ∉ v ∧ chDQ ∉ v ∧ chLF ∉ v ∧ chBS ∉ v ∧ chEq ∉ v := by
  refine ⟨?_, ?_, ?_, ?_, ?_⟩ <;>
  · intro hm
    have := hp _ hm
    revert this
    decide

/-- The line `ID='v'` with a plain value `v` of two or more characters sets the field to
the text `'v'`, quotes included; the line `ID="v"` sets it to `v`. -/
theorem parseLine_quoted_value (esc : String → Option String) (v : List Char)
    (os : OSVersion) (hp : ∀ c ∈ v, plainChar c = true) (h2 : 2 ≤ v.length) :
    parseLine esc (String.mk ("ID=".data ++ (chSQ :: v ++ [chSQ]))) os
      = Res.ok { os with ID := String.mk (chSQ :: v ++ [chSQ]) } ∧
    parseLine esc (String.mk ("ID=".data ++ (chDQ :: v ++ [chDQ]))) os
      = Res.ok { os with ID := String.mk v } := by
  obtain ⟨hsq, hdq, hlf, hbs, _⟩ := plainChar_not_special v hp
  have hmem : ∀ rest : List Char, chEq ∈ (String.mk ("ID=".data ++ rest)).data := by
    intro rest
    simp [chEq]
  have hkey : ∀ rest : List Char, lineKey (String.mk ("ID=".data ++ rest)) = "ID" := by
    intro rest
    have : "ID=".data = ['I', 'D', chEq] := by decide
    simp only [lineKey, this]
    have h1 : (('I' : Char) != chEq) = true := by decide
    have h2 : (('D' : Char) != chEq) = true := by decide
    simp [List.takeWhile, h1, h2]
    rfl
  have hval : ∀ rest : List Char, lineValue (String.mk ("ID=".data ++ rest)) = String.mk rest := by
    intro rest
    have : "ID=".data = ['I', 'D', chEq] := by decide
    simp only [lineValue, this]
    have h1 : (('I' : Char) != chEq) = true := by decide
    have h2 : (('D' : Char) != chEq) = true := by decide
    have h3 : (('=' : Char) != chEq) = false := by decide
    simp [List.dropWhile, h1, h2, h3]
  constructor
  · rw [parseLine_of_mem esc _ os (hmem _), hkey, hval,
      unquote_single_quoted esc v h2 hsq hlf hbs]
    simp
  · rw [parseLine_of_mem esc _ os (hmem _), hkey, hval,
      unquote_double_quoted esc v hdq hlf hbs]
    simp

/-- C16: the unquoted and the double-quoted form of a value parse to the value, and so does
a single-quoted value of one character; a single-quoted value of more than one character
keeps its quotes, `strconv.Unquote` taking single quotes for a character literal. -/
theorem C16_single_quoted_kept_raw (esc : String → Option String) (os : OSVersion) :
    parseOSReleaseFile esc "ID=ubuntu" os = Res.ok (none, { os with ID := "ubuntu" }) ∧
    parseOSReleaseFile esc "ID=\"ubuntu\"" os = Res.ok (none, { os with ID := "ubuntu" }) ∧
    parseOSReleaseFile esc "ID='ubuntu'" os = Res.ok (none, { os with ID := "'ubuntu'" }) ∧
    parseOSReleaseFile esc "ID='u'" os = Res.ok (none, { os with ID := "u" }) ∧
    parseOSReleaseFile esc "PRETTY_NAME=\"Ubuntu 22.04\"" os
      = Res.ok (none, { os with Name := "Ubuntu 22.04" }) ∧
    parseOSReleaseFile esc "PRETTY_NAME='Ubuntu 22.04'" os
      = Res.ok (none, { os with Name := "'Ubuntu 22.04'" }) :=
  ⟨rfl, rfl, rfl, rfl, rfl, rfl⟩

end Rig
